import Mathlib

/-!
# The sampling loop of the OBD / GPS queue logger

A shallow embedding of `main` in `src/azurelogger/main.c`: the capability map built at
startup, the header written when a telemetry message is opened, one iteration of the
`while(true)` sampling loop (row construction, flush predicate, exit check, pacing wait)
and the shutdown sequence.

Conventions of the embedding.

* The build with `HAVE_GPSD` defined is the one embedded (the position columns exist).
* C `float` and `double` values are represented by the rational numbers they denote. Every
  `double` operation of the loop rounds its exact result to the nearest double
  (`roundDouble`); the `float` values read from the diagnostic port are inputs.
* C signed integers (`int`, `long`, `time_t`) are represented by unbounded integers; the
  theorems that depend on their range (`INT_MIN`, `INT_MAX`, `LONG_MIN`, `LONG_MAX`) state it
  as a hypothesis.
* External calls (`gettimeofday`, `getobdvalue`, `getgpsposition`, `opengps`,
  `pn_data_size`, the signal handler) are inputs: every tick receives the answers these
  calls give on that tick.
* The messenger is the list of message bodies handed to `pn_messenger_put` and
  `pn_messenger_send`, oldest first.
-/

namespace AzureLogger

/-! ## Data -/

/-- Modelled from the spec: the declaration of `enum obd_serial_status` (in `obdserial.h`) is
not part of the sources at hand. `main` distinguishes `OBD_SUCCESS`, `OBD_ERROR` (the fatal
result) and every other value; the other values are the single constructor
`OBD_UNAVAILABLE`, the spec's "Unavailable" result of the diagnostic adapter. -/
inductive obd_serial_status
  | OBD_SUCCESS
  | OBD_UNAVAILABLE
  | OBD_ERROR
  deriving DecidableEq

/-- Modelled from the spec: `struct obdservicecmd` is declared in `obdservicecommands.h`, which
is not part of the sources at hand. These are the fields `main` reads: the parameter id, the
expected byte width and the nullable column name (`none` is `NULL`). The conversion function
`conv` is only handed on to `getobdvalue` and is part of that external call. -/
structure obdservicecmd where
  cmdid : Nat
  bytes_returned : Nat
  db_column : Option String
  deriving DecidableEq

/-- A `struct timeval`. -/
structure timeval where
  tv_sec : Int
  tv_usec : Int
  deriving DecidableEq

/-- One scalar written into a row: `pn_data_put_null`, `pn_data_put_double`,
`pn_data_put_float`. -/
inductive Cell
  | null
  | double (x : ℚ)
  | float (x : ℚ)
  deriving DecidableEq

/-- The body of a telemetry message: the list under key "h" and the list of rows under
key "d". -/
structure Body where
  h : List String
  d : List (List Cell)
  deriving DecidableEq

/-- What is fixed once the sampling loop starts. `obdcmds_mode1` is the static catalog and
`isobdcapabilitysupported q` the answer of `isobdcapabilitysupported(obdcaps, q)`; both are
declared outside the sources at hand and are parameters. `pn_data_size` is the size the
message library reports for a body. -/
structure Env where
  obdcmds_mode1 : List obdservicecmd
  isobdcapabilitysupported : Nat → Bool
  obd_serial_port : Int
  enable_optimisations : Bool
  samplespersecond : Int
  pn_data_size : Body → Nat

/-- The answer of one `getgpsposition` call: the status it returns and the six values it
stores. -/
structure GpsAnswer where
  gpsstatus : Int
  lat : ℚ
  lon : ℚ
  alt : ℚ
  speed : ℚ
  course : ℚ
  gpstime : ℚ

/-- The answers of the external calls of one tick. `starttime` and `endtime` are `none`
when `gettimeofday` fails; `getobdvalue i` is the status and value of the read made at
loop index `i`; `opengps` tells whether a reconnect made on this tick succeeds; `sigquit`
tells whether `catch_quitsignal` ran before the exit check of this tick. -/
structure TickInput where
  starttime : Option timeval
  getobdvalue : Nat → obd_serial_status × ℚ
  getgpsposition : GpsAnswer
  opengps : Bool
  sigquit : Bool
  endtime : Option timeval

/-- The variables of `main` that live across iterations. `gpsdata` is `true` when the
pointer is not `NULL`. `sent` is the messenger: the bodies put and sent so far. `gpsAttempts`
(capture times of the `opengps` calls made inside the loop) and `selects` (the timed waits
passed to `select`) record calls and are read by no branch. -/
structure LoopState where
  message : Option Body
  gpsdata : Bool
  have_gps_lock : Bool
  nmessage : Nat
  nrows : Nat
  time_lastgpscheck : ℚ
  lastRpm : Int
  currentRpm : Int
  receive_exitsignal : Bool
  sent : List Body
  gpsAttempts : List ℚ
  selects : List timeval
  deriving DecidableEq

/-- How one iteration ends: the loop goes on, or a `break` was taken. -/
inductive Outcome
  | running (s : LoopState)
  | exited (s : LoopState)
  deriving DecidableEq

/-- The state carried by an outcome. -/
def Outcome.state : Outcome → LoopState
  | .running s => s
  | .exited s => s

/-! ## Startup: frame time and capability map -/

/-- The payload threshold `maxMsgPayload`. -/
def maxMsgPayload : Nat := 1 * 1024

/-- Time between samples in microseconds (`frametime`). -/
def frametime (samplespersecond : Int) : Int :=
  if 0 ≥ samplespersecond then 0 else Int.tdiv 1000000 samplespersecond

/-- The counting loop over the catalog: `q` is the index of the head of the remaining
entries, `total` the running value of `totalSupportedObdCommands`. -/
def countLoop (supported : Nat → Bool) : List obdservicecmd → Nat → Nat → Nat
  | [], _, total => total
  | c :: rest, q, total =>
    if c.db_column.isSome && supported q then countLoop supported rest (q + 1) (total + 1)
    else countLoop supported rest (q + 1) total

/-- The value of `totalSupportedObdCommands`. -/
def totalSupportedObdCommands (catalog : List obdservicecmd) (supported : Nat → Bool) : Nat :=
  countLoop supported catalog 0 0

/-- The filling loop over the catalog: `i` is the index of the head of the remaining
entries, `j` the next slot, `arr` the array `supportedObdCommandsMap`; a store beyond the
end of the array leaves the list as it is. -/
def fillLoop (supported : Nat → Bool) : List obdservicecmd → Nat → Nat → List Nat → List Nat
  | [], _, _, arr => arr
  | c :: rest, i, j, arr =>
    if c.db_column.isSome then
      if supported i then fillLoop supported rest (i + 1) (j + 1) (arr.set j i)
      else fillLoop supported rest (i + 1) j arr
    else fillLoop supported rest (i + 1) j arr

/-- The array `supportedObdCommandsMap` after the filling loop; the array has
`totalSupportedObdCommands` slots, whose content before the loop is represented by zeros. -/
def supportedObdCommandsMap (catalog : List obdservicecmd) (supported : Nat → Bool) : List Nat :=
  fillLoop supported catalog 0 0
    (List.replicate (totalSupportedObdCommands catalog supported) 0)

/-- Number of active columns of an environment. -/
def Env.total (env : Env) : Nat :=
  totalSupportedObdCommands env.obdcmds_mode1 env.isobdcapabilitysupported

/-- The catalog entry `obdcmds_mode1[supportedObdCommandsMap[i]]`. -/
def Env.cmdAt (env : Env) (i : Nat) : Option obdservicecmd :=
  match (supportedObdCommandsMap env.obdcmds_mode1 env.isobdcapabilitysupported)[i]? with
  | some q => env.obdcmds_mode1[q]?
  | none => none

/-! ## Opening a telemetry message -/

/-- The column name written for active column `i`. -/
def columnId (env : Env) (i : Nat) : String :=
  match env.cmdAt i with
  | some c => c.db_column.getD ""
  | none => ""

/-- The six position column names, in the order they are written. -/
def gpsHeaders : List String := ["lat", "lon", "alt", "crs", "spd", "gtm"]

/-- The list written under "h" when a message is opened: the device time column, the
active diagnostic columns, the position columns. -/
def header (env : Env) : List String :=
  ["dtm"] ++ (List.range env.total).map (columnId env) ++ gpsHeaders

/-- A freshly opened telemetry message: header written, no row yet. -/
def newMessage (env : Env) : Body :=
  { h := header env, d := [] }

/-- The message rows are appended to on this iteration: the current one, or a new one when
`message == NULL`. -/
def currentBody (env : Env) (s : LoopState) : Body :=
  match s.message with
  | some b => b
  | none => newMessage env

/-- The top of the loop body: a message is created when `message == NULL`. -/
def openMessage (env : Env) (s : LoopState) : LoopState :=
  { s with message := some (currentBody env s) }

/-! ## One iteration: the row -/

/-- The loop of `log2Nat`: `n` is halved until it is below 2, at most `fuel` times. -/
def log2Fuel : Nat → Nat → Nat
  | 0, _ => 0
  | fuel + 1, n => if n < 2 then 0 else log2Fuel fuel (n / 2) + 1

/-- The position of the leading bit of a positive natural number: the greatest `k` with
`2 ^ k ≤ n`. -/
def log2Nat (n : Nat) : Nat :=
  log2Fuel n n

/-- The binary exponent of a positive rational `a`: the integer `e` with
`2 ^ e ≤ a < 2 ^ (e + 1)`, found from the leading bits of numerator and denominator. -/
def ilog2 (a : ℚ) : Int :=
  if (2 : ℚ) ^ ((log2Nat a.num.natAbs : Int) - (log2Nat a.den : Int)) ≤ a
  then (log2Nat a.num.natAbs : Int) - (log2Nat a.den : Int)
  else (log2Nat a.num.natAbs : Int) - (log2Nat a.den : Int) - 1

/-- The integer nearest to a rational, a tie going to the even integer. -/
def roundHalfEven (m : ℚ) : Int :=
  if m - (⌊m⌋ : Int) < 1 / 2 then ⌊m⌋
  else if 1 / 2 < m - (⌊m⌋ : Int) then ⌊m⌋ + 1
  else if ⌊m⌋ % 2 = 0 then ⌊m⌋ else ⌊m⌋ + 1

/-- The `double` nearest to a real number, a tie going to the even significand: the rounding
every IEEE 754 double operation applies to its exact result. The number is scaled so that
its significand has 53 bits, rounded to an integer and scaled back. Overflow and subnormal
numbers are not represented: the values the loop computes from clock readings are zero or
well inside the normal range. -/
def roundDouble (x : ℚ) : ℚ :=
  if x = 0 then 0
  else (roundHalfEven (x / (2 : ℚ) ^ (ilog2 |x| - 52)) : ℚ) * (2 : ℚ) ^ (ilog2 |x| - 52)

/-- The capture time `time_insert`, in seconds:
`(double)starttime.tv_sec+(double)starttime.tv_usec/1000000.0f`, each conversion and each
operation rounded to a double. -/
def time_insert (starttime : timeval) : ℚ :=
  roundDouble (roundDouble (starttime.tv_sec : ℚ)
    + roundDouble (roundDouble (starttime.tv_usec : ℚ) / 1000000))

/-- Conversion of a `float` to `int` (the assignment `currentRpm = val`): the fractional
part is discarded. This is the value C defines when the integer part is a value of `int`
(`intConvertible`); outside that range the conversion is undefined, and the theorems that
depend on the value assume the range. -/
def floatToInt (val : ℚ) : Int :=
  Int.tdiv val.num val.den

/-- What the diagnostic read loop updates: the row under construction, `currentRpm` and
`receive_exitsignal`. -/
structure RowState where
  row : List Cell
  currentRpm : Int
  receive_exitsignal : Bool
  deriving DecidableEq

/-- The command id read at loop index `i`. -/
def cmdidAt (env : Env) (i : Nat) : Nat :=
  match env.cmdAt i with
  | some c => c.cmdid
  | none => 0

/-- The body of the diagnostic read loop at index `i`. With the port open the value is
read: a success stores the value (and `currentRpm` for command 0x0C), `OBD_ERROR` sets
`receive_exitsignal`, any other status does nothing. With the port closed a null is
stored. -/
def obdStep (env : Env) (inp : TickInput) (st : RowState) (i : Nat) : RowState :=
  if env.obd_serial_port ≥ 0 then
    let isRpm : Bool := cmdidAt env i == 0x0C
    match inp.getobdvalue i with
    | (.OBD_SUCCESS, val) =>
      { row := st.row ++ [Cell.float val],
        currentRpm := if isRpm then floatToInt val else st.currentRpm,
        receive_exitsignal := st.receive_exitsignal }
    | (.OBD_ERROR, _) => { st with receive_exitsignal := true }
    | (.OBD_UNAVAILABLE, _) => st
  else
    { st with row := st.row ++ [Cell.null] }

/-- The diagnostic read loop `for(i=0; i<totalSupportedObdCommands-1; i++)`. The bound is
computed on `int`: with no active column it is -1 and the body does not run, which the
truncated subtraction gives too. -/
def obdLoop (env : Env) (inp : TickInput) (st : RowState) : RowState :=
  (List.range (env.total - 1)).foldl (obdStep env inp) st

/-- The position part of an iteration: the link state after it and the six cells written. -/
structure GpsResult where
  gpsdata : Bool
  have_gps_lock : Bool
  time_lastgpscheck : ℚ
  gpsAttempts : List ℚ
  cells : List Cell

/-- The position read. With a link, `getgpsposition` gives the status; without one a
reconnect is made when the double `time_insert - time_lastgpscheck` is greater than 10.
Six nulls are written when the status is negative or the link is absent, the six values
otherwise. -/
def gpsRead (s : LoopState) (inp : TickInput) (t : ℚ) : GpsResult :=
  let gpsstatus : Int := if s.gpsdata then inp.getgpsposition.gpsstatus else -1
  let retry : Bool := !s.gpsdata && decide (roundDouble (t - s.time_lastgpscheck) > 10)
  let gpsdata : Bool := if retry then inp.opengps else s.gpsdata
  let time_lastgpscheck : ℚ := if retry then t else s.time_lastgpscheck
  let gpsAttempts : List ℚ := if retry then s.gpsAttempts ++ [t] else s.gpsAttempts
  if gpsstatus < 0 ∨ gpsdata = false then
    { gpsdata := gpsdata, have_gps_lock := s.have_gps_lock,
      time_lastgpscheck := time_lastgpscheck, gpsAttempts := gpsAttempts,
      cells := List.replicate 6 Cell.null }
  else
    let g := inp.getgpsposition
    { gpsdata := gpsdata, have_gps_lock := true,
      time_lastgpscheck := time_lastgpscheck, gpsAttempts := gpsAttempts,
      cells := [Cell.double g.lat, Cell.double g.lon,
                Cell.double (if g.gpsstatus ≥ 1 then g.alt else -1000),
                Cell.double g.speed, Cell.double g.course, Cell.double g.gpstime] }

/-- The diagnostic part of the row of a tick that starts at `starttime`. -/
def obdPart (env : Env) (s : LoopState) (inp : TickInput) (starttime : timeval) : RowState :=
  obdLoop env inp
    { row := [Cell.double (time_insert starttime)],
      currentRpm := s.currentRpm,
      receive_exitsignal := s.receive_exitsignal }

/-- The complete row written on a tick that starts at `starttime`. -/
def tickRow (env : Env) (s : LoopState) (inp : TickInput) (starttime : timeval) : List Cell :=
  (obdPart env s inp starttime).row ++ (gpsRead s inp (time_insert starttime)).cells

/-! ## One iteration: flush, exit check, pacing wait -/

/-- The body after the row of the tick is appended. -/
def bodyWithRow (env : Env) (s : LoopState) (inp : TickInput) (starttime : timeval) : Body :=
  { h := (currentBody env s).h, d := (currentBody env s).d ++ [tickRow env s inp starttime] }

/-- The flush predicate
`pn_data_size(body) > maxMsgPayload || (lastRpm > 0 && currentRpm == 0)`. -/
def flushDue (env : Env) (s : LoopState) (inp : TickInput) (starttime : timeval) : Bool :=
  decide (env.pn_data_size (bodyWithRow env s inp starttime) > maxMsgPayload)
    || (decide (s.lastRpm > 0) && decide ((obdPart env s inp starttime).currentRpm = 0))

/-- The timed wait handed to `select`, computed from `frametime` and the two readings of
the clock. The arithmetic is that of `long` as long as every value formed stays within its
range (`selecttimeInRange`); the theorems that depend on the value assume the range. -/
def selecttime (frametime : Int) (starttime endtime : timeval) : timeval :=
  let sec : Int := endtime.tv_sec - starttime.tv_sec
  let end_usec : Int := if sec ≠ 0 then endtime.tv_usec + 1000000 * sec else endtime.tv_usec
  let tv_sec : Int := if sec ≠ 0 then 0 else sec
  let usec : Int := frametime - (end_usec - starttime.tv_usec)
  { tv_sec := tv_sec, tv_usec := if usec < 0 then 1 else usec }

/-- The state at the end of an iteration that got its start time, before the second
`gettimeofday`: row appended, message sent and released when the flush is due,
`lastRpm` updated. -/
def afterFlush (env : Env) (s : LoopState) (inp : TickInput) (starttime : timeval) : LoopState :=
  let r := obdPart env s inp starttime
  let g := gpsRead s inp (time_insert starttime)
  let body := bodyWithRow env s inp starttime
  let due := flushDue env s inp starttime
  { message := if due then none else some body,
    gpsdata := g.gpsdata,
    have_gps_lock := g.have_gps_lock,
    nmessage := if due then s.nmessage + 1 else s.nmessage,
    nrows := if due then 0 else s.nrows + 1,
    time_lastgpscheck := g.time_lastgpscheck,
    lastRpm := r.currentRpm,
    currentRpm := r.currentRpm,
    receive_exitsignal := r.receive_exitsignal || inp.sigquit,
    sent := if due then s.sent ++ [body] else s.sent,
    gpsAttempts := g.gpsAttempts,
    selects := s.selects }

/-- One iteration of `while(true)`. -/
def tick (env : Env) (s : LoopState) (inp : TickInput) : Outcome :=
  match inp.starttime with
  | none => .exited (openMessage env s)
  | some starttime =>
    let s1 := afterFlush env s inp starttime
    match inp.endtime with
    | none => .exited s1
    | some endtime =>
      if s1.receive_exitsignal then .exited s1
      else if 0 < frametime env.samplespersecond then
        .running { s1 with
          selects := s1.selects ++ [selecttime (frametime env.samplespersecond) starttime endtime] }
      else .running s1

/-- The loop run on the answers of its first ticks: it stops at the first `break`; when the
answers run out the loop is still running. -/
def runLoop (env : Env) (s : LoopState) : List TickInput → Outcome
  | [] => .running s
  | inp :: rest =>
    match tick env s inp with
    | .running s1 => runLoop env s1 rest
    | .exited s1 => .exited s1

/-- The variables of the loop as `main` initialises them; `gpsdata` is the result of the
`opengps` call made at startup. -/
def initState (gpsdata : Bool) : LoopState :=
  { message := none, gpsdata := gpsdata, have_gps_lock := false, nmessage := 0, nrows := 0,
    time_lastgpscheck := 0, lastRpm := 0, currentRpm := 0, receive_exitsignal := false,
    sent := [], gpsAttempts := [], selects := [] }

/-- The statements after the loop: the messenger is stopped and freed, the serial port and
the position link are closed, the strings are freed. No message is put or sent; the result
is the list of bodies the messenger was given during the whole run. -/
def shutdown (s : LoopState) : List Body :=
  s.sent

/-! ## Statement-side definitions, invariants and concrete inputs -/

/-- The catalog entries, with their indices, that have a column name and that the device
supports, in catalog order. -/
def activeColumns (catalog : List obdservicecmd) (supported : Nat → Bool) :
    List (Nat × obdservicecmd) :=
  catalog.enum.filter (fun p => p.2.db_column.isSome && supported p.1)

/-- The test both startup loops make on an indexed catalog entry. -/
def activeEntry (supported : Nat → Bool) (p : Nat × obdservicecmd) : Bool :=
  p.2.db_column.isSome && supported p.1

/-- Every message of a state, sent or open, carries the header of the environment. -/
def HeaderInv (env : Env) (s : LoopState) : Prop :=
  (∀ b ∈ s.sent, b.h = header env) ∧ (∀ b, s.message = some b → b.h = header env)

/-- A catalog of three parameters: engine load, engine speed, vehicle speed. -/
def catalog3 : List obdservicecmd :=
  [{ cmdid := 0x04, bytes_returned := 1, db_column := some "load" },
   { cmdid := 0x0C, bytes_returned := 2, db_column := some "rpm" },
   { cmdid := 0x0D, bytes_returned := 1, db_column := some "vss" }]

/-- A body size that counts the cells of all rows. -/
def cellCount (b : Body) : Nat :=
  (b.d.map List.length).sum

/-- The serial port open (descriptor 3), the device supporting only engine speed. -/
def envRpmOnly : Env :=
  { obdcmds_mode1 := catalog3, isobdcapabilitysupported := fun q => q == 1,
    obd_serial_port := 3, enable_optimisations := false, samplespersecond := 10,
    pn_data_size := cellCount }

/-- The serial port open (descriptor 3), the device supporting all three parameters. -/
def envAll : Env :=
  { obdcmds_mode1 := catalog3, isobdcapabilitysupported := fun _ => true,
    obd_serial_port := 3, enable_optimisations := false, samplespersecond := 10,
    pn_data_size := cellCount }

/-- No serial port and hence no active column; only the position source is logged. -/
def envGpsOnly : Env :=
  { obdcmds_mode1 := catalog3, isobdcapabilitysupported := fun _ => false,
    obd_serial_port := -1, enable_optimisations := false, samplespersecond := 10,
    pn_data_size := cellCount }

/-- A position answer without a fix. -/
def noFix : GpsAnswer :=
  { gpsstatus := -1, lat := 0, lon := 0, alt := 0, speed := 0, course := 0, gpstime := 0 }

/-- A position answer with a 3D fix: speed 4, course 5. -/
def fix3D : GpsAnswer :=
  { gpsstatus := 1, lat := 1, lon := 2, alt := 3, speed := 4, course := 5, gpstime := 6 }

/-- A tick at capture time 100 s that lasts 20 ms: every diagnostic read succeeds with
value 800, the position source has no fix. -/
def tickAllSuccess : TickInput :=
  { starttime := some { tv_sec := 100, tv_usec := 0 },
    getobdvalue := fun _ => (.OBD_SUCCESS, 800),
    getgpsposition := noFix, opengps := false, sigquit := false,
    endtime := some { tv_sec := 100, tv_usec := 20000 } }

/-- A tick at capture time 100 s: the read of column 0 is unavailable, the other reads
succeed with value 800, the position source has no fix. -/
def tickFirstUnavailable : TickInput :=
  { starttime := some { tv_sec := 100, tv_usec := 0 },
    getobdvalue := fun i => if i = 0 then (.OBD_UNAVAILABLE, 0) else (.OBD_SUCCESS, 800),
    getgpsposition := noFix, opengps := false, sigquit := false,
    endtime := some { tv_sec := 100, tv_usec := 20000 } }

/-- A tick at capture time 100 s on which the position source returns the fix `fix3D`. -/
def tickFix : TickInput :=
  { starttime := some { tv_sec := 100, tv_usec := 0 },
    getobdvalue := fun _ => (.OBD_SUCCESS, 800),
    getgpsposition := fix3D, opengps := false, sigquit := false,
    endtime := some { tv_sec := 100, tv_usec := 20000 } }

/-- The least value of a `long` of 32 bits, the narrowest `long` C allows. -/
def LONG_MIN : Int := -2147483648

/-- The greatest value of a `long` of 32 bits. -/
def LONG_MAX : Int := 2147483647

/-- An integer is a value of `long`. -/
@[reducible] def inLong (z : Int) : Prop :=
  LONG_MIN ≤ z ∧ z ≤ LONG_MAX

/-- Every value the wait computation forms (main.c:591-597) is a value of `long`: the
operands, the difference of the seconds, its product with 1000000, the adjusted
microseconds, the elapsed microseconds and the remaining wait. With a wider `long` more
pairs of times qualify. -/
@[reducible] def selecttimeInRange (ft : Int) (starttime endtime : timeval) : Prop :=
  inLong ft ∧ inLong starttime.tv_sec ∧ inLong starttime.tv_usec
    ∧ inLong endtime.tv_sec ∧ inLong endtime.tv_usec
    ∧ inLong (endtime.tv_sec - starttime.tv_sec)
    ∧ inLong (1000000 * (endtime.tv_sec - starttime.tv_sec))
    ∧ inLong (endtime.tv_usec + 1000000 * (endtime.tv_sec - starttime.tv_sec))
    ∧ inLong (endtime.tv_usec + 1000000 * (endtime.tv_sec - starttime.tv_sec)
        - starttime.tv_usec)
    ∧ inLong (ft - (endtime.tv_usec + 1000000 * (endtime.tv_sec - starttime.tv_sec)
        - starttime.tv_usec))

/-- The least value of an `int` of 32 bits. -/
def INT_MIN : Int := -2147483648

/-- The greatest value of an `int` of 32 bits. -/
def INT_MAX : Int := 2147483647

/-- An integer is a value of `int`. -/
@[reducible] def inInt (z : Int) : Prop :=
  INT_MIN ≤ z ∧ z ≤ INT_MAX

/-- The conversion of a float to `int` is defined: its integer part is a value of `int`. -/
@[reducible] def intConvertible (val : ℚ) : Prop :=
  inInt (floatToInt val)

/-- The true elapsed time of a tick in microseconds. -/
def elapsed (starttime endtime : timeval) : Int :=
  (endtime.tv_sec * 1000000 + endtime.tv_usec) - (starttime.tv_sec * 1000000 + starttime.tv_usec)

/-- The wait the claim describes: zero seconds and `max(1, frametime - elapsed)`
microseconds. -/
def claimedWait (frametime : Int) (starttime endtime : timeval) : timeval :=
  { tv_sec := 0, tv_usec := max 1 (frametime - elapsed starttime endtime) }

/-- A tick at capture time 100 s that lasts exactly 100 ms, the frame time of 10 samples
per second. -/
def tickFullFrame : TickInput :=
  { starttime := some { tv_sec := 100, tv_usec := 0 },
    getobdvalue := fun _ => (.OBD_SUCCESS, 800),
    getgpsposition := noFix, opengps := false, sigquit := false,
    endtime := some { tv_sec := 100, tv_usec := 100000 } }

/-- Whether an outcome is a `break`. -/
def Outcome.isExited : Outcome → Bool
  | .running _ => false
  | .exited _ => true

/-- A tick at capture time 100 s on which the read of column 0 returns `OBD_ERROR` and the
other reads succeed with value 800; the position source has no fix. -/
def tickFatal : TickInput :=
  { starttime := some { tv_sec := 100, tv_usec := 0 },
    getobdvalue := fun i => if i = 0 then (.OBD_ERROR, 0) else (.OBD_SUCCESS, 800),
    getgpsposition := noFix, opengps := false, sigquit := false,
    endtime := some { tv_sec := 100, tv_usec := 20000 } }

/-- Whether the read at loop index `i` is a successful read of engine speed (command
0x0C). -/
def rpmSuccess (env : Env) (inp : TickInput) (i : Nat) : Bool :=
  cmdidAt env i == 0x0C && decide ((inp.getobdvalue i).1 = obd_serial_status.OBD_SUCCESS)

/-- The engine-speed reading of a tick: the value of the last successful read of command
0x0C among the reads the loop makes on that tick, if there is one. -/
def rpmReading (env : Env) (inp : TickInput) : Option ℚ :=
  if env.obd_serial_port ≥ 0 then
    ((List.range (env.total - 1)).reverse.find? (rpmSuccess env inp)).map
      (fun i => (inp.getobdvalue i).2)
  else none

/-- Every engine-speed value the read loop assigns to `currentRpm` on a tick converts to
`int`. -/
def rpmInRange (env : Env) (inp : TickInput) : Prop :=
  env.obd_serial_port ≥ 0 → ∀ i, i < env.total - 1 → rpmSuccess env inp i = true →
    intConvertible (inp.getobdvalue i).2

/-- The integer engine speed held after a tick: the integer part of the reading of the
tick, or the value held before when the tick has no reading. -/
def heldRpm (prev : Int) : Option ℚ → Int
  | some v => floatToInt v
  | none => prev

/-- A tick at capture time `sec` seconds that lasts 20 ms, on which every diagnostic read
succeeds with value `v`; the position source has no fix. -/
def tickRpm (sec : Int) (v : ℚ) : TickInput :=
  { starttime := some { tv_sec := sec, tv_usec := 0 },
    getobdvalue := fun _ => (.OBD_SUCCESS, v),
    getgpsposition := noFix, opengps := false, sigquit := false,
    endtime := some { tv_sec := sec, tv_usec := 20000 } }

/-- The environment `envAll` with a message library that reports the size `n` for every
body. -/
def envSize (n : Nat) : Env :=
  { envAll with pn_data_size := fun _ => n }

/-- The reading of a simulated clock that starts at `t0` microseconds and advances by
100000 microseconds (10 ticks per second) from one tick to the next. -/
def simClock (t0 : Int) (k : Nat) : timeval :=
  { tv_sec := (t0 + 100000 * (k : Int)) / 1000000,
    tv_usec := (t0 + 100000 * (k : Int)) % 1000000 }

/-- Any two reconnect attempts of a state are more than 10 seconds apart, the later one
after the earlier one, and no attempt is later than the time kept in
`time_lastgpscheck`. -/
def GpsInv (s : LoopState) : Prop :=
  List.Pairwise (fun a b : ℚ => 10 < b - a) s.gpsAttempts
    ∧ ∀ a ∈ s.gpsAttempts, a ≤ s.time_lastgpscheck

/-- A list of tick numbers, the latest first, in which every tick is 100 or 101 ticks after
the one before it, the earliest one 100 or 101 ticks after tick 0. -/
def gapsOK : List Nat → Prop
  | [] => True
  | [a] => a = 100 ∨ a = 101
  | a :: b :: rest => (a = b + 100 ∨ a = b + 101) ∧ gapsOK (b :: rest)

/-- A tick of the simulated clock at tick number `k`, 20 ms long, on which the position
link stays down and every diagnostic read succeeds. -/
def simTick (t0 : Int) (k : Nat) : TickInput :=
  { starttime := some (simClock t0 k),
    getobdvalue := fun _ => (.OBD_SUCCESS, 800),
    getgpsposition := noFix, opengps := false, sigquit := false,
    endtime := some (simClock (t0 + 20000) k) }

/-! ## The insert statement of `sb_comm.c` -/

/-- Size in bytes of the array `insert_sql`. -/
def insert_sql_size : Nat := 4096

/-- The C `strlen`: the number of bytes of a string before its terminating NUL. A string
stands for the bytes of its UTF-8 encoding. -/
def strlen (s : String) : Nat :=
  s.utf8ByteSize

/-- The call `strcat(insert_sql, src)` on the array of `insert_sql_size` bytes. The result is
defined when the joined text and its terminating NUL fit the array; otherwise the call
writes past the end of the array and the result is `none`. -/
def strcat (dest src : String) : Option String :=
  if strlen dest + strlen src + 1 ≤ insert_sql_size then some (dest ++ src) else none

/-- The first loop of `createobdinsertstmt`: `i` is the index of the head of the remaining
catalog entries; every entry with a column name that the device supports appends its name
and a comma and counts one column. -/
def columnsLoop (supported : Nat → Bool) :
    List obdservicecmd → Nat → String → Nat → Option (String × Nat)
  | [], _, insert_sql, columncount => some (insert_sql, columncount)
  | c :: rest, i, insert_sql, columncount =>
    match c.db_column with
    | some db_column =>
      if supported i then
        (strcat insert_sql db_column).bind fun s1 =>
          (strcat s1 ",").bind fun s2 =>
            columnsLoop supported rest (i + 1) s2 (columncount + 1)
      else columnsLoop supported rest (i + 1) insert_sql columncount
    | none => columnsLoop supported rest (i + 1) insert_sql columncount

/-- The second loop of `createobdinsertstmt`: one "?," for each counted column. -/
def placeholdersLoop : Nat → String → Option String
  | 0, insert_sql => some insert_sql
  | n + 1, insert_sql => (strcat insert_sql "?,").bind fun s1 => placeholdersLoop n s1

/-- What a call of `createobdinsertstmt` produces: the text handed to `sqlite3_prepare_v2`
and the value returned. -/
structure InsertStmt where
  insert_sql : String
  ret : Nat
  deriving DecidableEq

/-- The function `createobdinsertstmt`. The catalog `obdcmds_mode1` and the capability
answers are parameters, as for `main`; `sqlite3_prepare_v2 sql` tells whether preparing
`sql` gives `SQLITE_OK`. The result is `none` when a `strcat` runs past the array. -/
def createobdinsertstmt (catalog : List obdservicecmd) (supported : Nat → Bool)
    (sqlite3_prepare_v2 : String → Bool) : Option InsertStmt :=
  (columnsLoop supported catalog 0 "INSERT INTO obd (" 0).bind fun r1 =>
    (strcat r1.1 "time,trip) VALUES (").bind fun s2 =>
      (placeholdersLoop r1.2 s2).bind fun s3 =>
        (strcat s3 "?,?)").bind fun insert_sql =>
          if sqlite3_prepare_v2 insert_sql then
            some { insert_sql := insert_sql, ret := r1.2 + 1 }
          else
            some { insert_sql := insert_sql, ret := 0 }

/-- The texts of a list joined, in order. -/
def concatAll : List String → String
  | [] => ""
  | a :: rest => a ++ concatAll rest

/-- The calls `strcat(insert_sql, p)` for the pieces `p` of a list, in order. -/
def strcatAll : String → List String → Option String
  | insert_sql, [] => some insert_sql
  | insert_sql, p :: rest => (strcat insert_sql p).bind fun s1 => strcatAll s1 rest

/-- The pieces the first loop appends for a list of column names: each name and a comma. -/
def namePieces : List String → List String
  | [] => []
  | n :: rest => n :: "," :: namePieces rest

/-- All pieces appended to "INSERT INTO obd (" for a list of column names. -/
def insertPieces (names : List String) : List String :=
  namePieces names ++ ["time,trip) VALUES ("] ++ List.replicate names.length "?," ++ ["?,?)"]

/-- A list of texts separated by commas. -/
def commaSep : List String → String
  | [] => ""
  | [a] => a
  | a :: b :: rest => a ++ "," ++ commaSep (b :: rest)

/-- The column names of the active catalog entries, in catalog order. -/
def activeNames (catalog : List obdservicecmd) (supported : Nat → Bool) : List String :=
  (activeColumns catalog supported).filterMap (fun p => p.2.db_column)

/-- The parameterised INSERT the claim describes for a list of column names: the names
followed by "time" and "trip", and one "?" for each listed column. -/
def insertText (names : List String) : String :=
  "INSERT INTO obd (" ++ commaSep (names ++ ["time", "trip"]) ++ ") VALUES ("
    ++ commaSep (List.replicate (names.length + 2) "?") ++ ")"

/-- The decimal digit `d % 10` as a character. -/
def digitChar (d : Nat) : Char :=
  ['0', '1', '2', '3', '4', '5', '6', '7', '8', '9'].getD (d % 10) '0'

/-- The column name "parameter_" followed by the three decimal digits of `i`. -/
def parameterName (i : Nat) : String :=
  "parameter_" ++ String.mk [digitChar (i / 100), digitChar (i / 10), digitChar i]

/-- A catalog with an entry for each of the 256 parameter ids of one byte, each with a
column name of 13 characters. -/
def catalog256 : List obdservicecmd :=
  (List.range 256).map fun i =>
    { cmdid := i, bytes_returned := 1, db_column := some (parameterName i) }

/-! # Theorems -/

/-! ## Startup lemmas -/

theorem countLoop_eq (supported : Nat → Bool) (rest : List obdservicecmd) (q total : Nat) :
    countLoop supported rest q total
      = total + ((rest.enumFrom q).filter (activeEntry supported)).length := by
  induction rest generalizing q total with
  | nil => simp [countLoop]
  | cons c rest ih =>
    by_cases hc : (c.db_column.isSome && supported q) = true
    · simp only [countLoop, hc, if_true, ih, List.enumFrom_cons]
      rw [List.filter_cons_of_pos (by simpa [activeEntry] using hc)]
      simp only [List.length_cons]
      omega
    · simp only [countLoop, hc, ih, List.enumFrom_cons]
      rw [List.filter_cons_of_neg (by simpa [activeEntry] using hc)]
      simp

theorem fillLoop_eq (supported : Nat → Bool) (rest : List obdservicecmd) (i j : Nat)
    (arr : List Nat)
    (h : j + ((rest.enumFrom i).filter (activeEntry supported)).length ≤ arr.length) :
    fillLoop supported rest i j arr
      = arr.take j ++ ((rest.enumFrom i).filter (activeEntry supported)).map Prod.fst
          ++ arr.drop (j + ((rest.enumFrom i).filter (activeEntry supported)).length) := by
  induction rest generalizing i j arr with
  | nil => simp [fillLoop]
  | cons c rest ih =>
    by_cases hc : (c.db_column.isSome && supported i) = true
    · have hact : activeEntry supported (i, c) = true := by simpa [activeEntry] using hc
      have hc1 : c.db_column.isSome = true := by
        simp only [Bool.and_eq_true] at hc; exact hc.1
      have hc2 : supported i = true := by
        simp only [Bool.and_eq_true] at hc; exact hc.2
      rw [List.enumFrom_cons, List.filter_cons_of_pos hact] at h ⊢
      simp only [List.length_cons] at h
      have hj : j < arr.length := by omega
      simp only [fillLoop, hc1, hc2, if_true]
      rw [ih (i + 1) (j + 1) (arr.set j i) (by simp only [List.length_set]; omega)]
      have e1 : (arr.set j i).take (j + 1) = arr.take j ++ [i] := by
        rw [List.set_eq_take_append_cons_drop, if_pos hj]
        rw [List.take_append_eq_append_take]
        simp [List.take_take, List.length_take, Nat.min_eq_left (Nat.le_of_lt hj)]
      have e2 : ∀ k, (arr.set j i).drop (j + 1 + k) = arr.drop (j + 1 + k) := by
        intro k
        rw [List.set_eq_take_append_cons_drop, if_pos hj]
        have hlen : (List.take j arr).length = j := by
          simp [List.length_take, Nat.min_eq_left (Nat.le_of_lt hj)]
        rw [List.drop_append_eq_append_drop, hlen]
        have : List.drop (j + 1 + k) (List.take j arr) = [] := by
          apply List.drop_eq_nil_of_le; rw [hlen]; omega
        rw [this, List.nil_append]
        have : j + 1 + k - j = (k + 1) := by omega
        rw [this, List.drop_succ_cons, List.drop_drop]
      rw [e1, e2]
      simp only [List.map_cons, List.length_cons, List.append_assoc, List.singleton_append]
      congr 3; omega
    · have hact : ¬ activeEntry supported (i, c) = true := by simpa [activeEntry] using hc
      rw [List.enumFrom_cons, List.filter_cons_of_neg hact] at h ⊢
      have hfill : fillLoop supported (c :: rest) i j arr
          = fillLoop supported rest (i + 1) j arr := by
        simp only [fillLoop]
        by_cases h1 : c.db_column.isSome = true
        · have h2 : supported i = false := by
            simp only [Bool.and_eq_true, not_and, Bool.not_eq_true] at hc; exact hc h1
          simp [h1, h2]
        · simp [h1]
      rw [hfill, ih (i + 1) j arr h]

theorem activeColumns_eq (catalog : List obdservicecmd) (supported : Nat → Bool) :
    activeColumns catalog supported = (catalog.enumFrom 0).filter (activeEntry supported) :=
  rfl

theorem total_eq_length (catalog : List obdservicecmd) (supported : Nat → Bool) :
    totalSupportedObdCommands catalog supported = (activeColumns catalog supported).length := by
  rw [totalSupportedObdCommands, countLoop_eq, activeColumns_eq]
  simp

theorem fillLoop_full (catalog : List obdservicecmd) (supported : Nat → Bool) (vla : List Nat)
    (hvla : vla.length = totalSupportedObdCommands catalog supported) :
    fillLoop supported catalog 0 0 vla = (activeColumns catalog supported).map Prod.fst := by
  rw [total_eq_length, activeColumns_eq] at hvla
  rw [fillLoop_eq supported catalog 0 0 vla (by omega), activeColumns_eq]
  have : List.drop (0 + ((catalog.enumFrom 0).filter (activeEntry supported)).length) vla = [] := by
    apply List.drop_eq_nil_of_le; omega
  rw [this]
  simp

theorem map_eq_active (catalog : List obdservicecmd) (supported : Nat → Bool) :
    supportedObdCommandsMap catalog supported = (activeColumns catalog supported).map Prod.fst :=
  fillLoop_full catalog supported _ (by simp)

theorem active_increasing (catalog : List obdservicecmd) (supported : Nat → Bool) :
    List.Pairwise (fun a b => a < b) ((activeColumns catalog supported).map Prod.fst) := by
  have hsub : ((activeColumns catalog supported).map Prod.fst).Sublist
      ((catalog.enumFrom 0).map Prod.fst) :=
    (List.filter_sublist _).map _
  refine List.Pairwise.sublist hsub ?_
  rw [List.enumFrom_map_fst]
  exact List.pairwise_lt_range' 0 catalog.length

theorem mem_activeColumns {catalog : List obdservicecmd} {supported : Nat → Bool}
    {p : Nat × obdservicecmd} (hp : p ∈ activeColumns catalog supported) :
    catalog[p.1]? = some p.2 ∧ p.2.db_column.isSome = true ∧ supported p.1 = true := by
  simp only [activeColumns, List.mem_filter, Bool.and_eq_true] at hp
  obtain ⟨hmem, h1, h2⟩ := hp
  exact ⟨List.mk_mem_enum_iff_getElem?.mp hmem, h1, h2⟩

theorem mem_active_indices (catalog : List obdservicecmd) (supported : Nat → Bool) (q : Nat) :
    q ∈ (activeColumns catalog supported).map Prod.fst
      ↔ ∃ c, catalog[q]? = some c ∧ c.db_column ≠ none ∧ supported q = true := by
  constructor
  · intro h
    obtain ⟨p, hp, hq⟩ := List.mem_map.mp h
    obtain ⟨h1, h2, h3⟩ := mem_activeColumns hp
    subst hq
    refine ⟨p.2, h1, ?_, h3⟩
    intro hnone
    rw [hnone] at h2
    cases h2
  · rintro ⟨c, h1, h2, h3⟩
    refine List.mem_map.mpr ⟨(q, c), ?_, rfl⟩
    simp only [activeColumns, List.mem_filter, Bool.and_eq_true]
    refine ⟨List.mk_mem_enum_iff_getElem?.mpr h1, ?_, h3⟩
    cases hcol : c.db_column with
    | none => exact absurd hcol h2
    | some x => rfl

theorem cmdAt_eq (env : Env) (i : Nat) :
    env.cmdAt i
      = ((activeColumns env.obdcmds_mode1 env.isobdcapabilitysupported)[i]?).map Prod.snd := by
  unfold Env.cmdAt
  rw [map_eq_active, List.getElem?_map]
  cases hq : (activeColumns env.obdcmds_mode1 env.isobdcapabilitysupported)[i]? with
  | none => simp
  | some p =>
    have hp : p ∈ activeColumns env.obdcmds_mode1 env.isobdcapabilitysupported :=
      List.getElem?_mem hq
    simpa using (mem_activeColumns hp).1

theorem filterMap_names_eq (l : List (Nat × obdservicecmd))
    (hl : ∀ p ∈ l, p.2.db_column.isSome = true) :
    l.filterMap (fun p => p.2.db_column) = l.map (fun p => p.2.db_column.getD "") := by
  induction l with
  | nil => rfl
  | cons p l ih =>
    have hp := hl p (List.mem_cons_self p l)
    have ih1 := ih (fun q hq => hl q (List.mem_cons_of_mem p hq))
    cases hcol : p.2.db_column with
    | none => rw [hcol] at hp; cases hp
    | some c => simp [List.filterMap_cons, hcol, ih1]

theorem header_columns (env : Env) :
    (List.range env.total).map (columnId env)
      = (activeColumns env.obdcmds_mode1 env.isobdcapabilitysupported).filterMap
          (fun p => p.2.db_column) := by
  rw [filterMap_names_eq _ (fun p hp => (mem_activeColumns hp).2.1)]
  apply List.ext_getElem?
  intro n
  rw [List.getElem?_map, List.getElem?_map]
  by_cases hn : n < env.total
  · rw [List.getElem?_range hn]
    have hn1 : n < (activeColumns env.obdcmds_mode1 env.isobdcapabilitysupported).length := by
      rw [← total_eq_length]; exact hn
    simp only [Option.map_some', columnId, cmdAt_eq, List.getElem?_eq_getElem hn1]
  · have h1 : (List.range env.total)[n]? = none := by
      apply List.getElem?_eq_none; simp only [List.length_range]; omega
    have h2 : (activeColumns env.obdcmds_mode1 env.isobdcapabilitysupported)[n]? = none := by
      apply List.getElem?_eq_none; rw [← total_eq_length]; unfold Env.total at hn; omega
    rw [h1, h2]; rfl

/-! ## Lemmas on one iteration and on runs -/

theorem currentBody_h (env : Env) (s : LoopState) (hs : HeaderInv env s) :
    (currentBody env s).h = header env := by
  unfold currentBody
  cases hm : s.message with
  | none => rfl
  | some b => exact hs.2 b hm

theorem headerInv_openMessage (env : Env) (s : LoopState) (hs : HeaderInv env s) :
    HeaderInv env (openMessage env s) := by
  refine ⟨hs.1, ?_⟩
  intro b hb
  simp only [openMessage, Option.some.injEq] at hb
  rw [← hb]; exact currentBody_h env s hs

theorem headerInv_afterFlush (env : Env) (s : LoopState) (inp : TickInput) (st : timeval)
    (hs : HeaderInv env s) : HeaderInv env (afterFlush env s inp st) := by
  have hb : (bodyWithRow env s inp st).h = header env := currentBody_h env s hs
  constructor
  · intro b
    simp only [afterFlush]
    split
    · intro hmem
      rcases List.mem_append.mp hmem with h | h
      · exact hs.1 b h
      · rw [List.mem_singleton.mp h]; exact hb
    · exact hs.1 b
  · intro b
    simp only [afterFlush]
    split
    · intro h; cases h
    · intro h; simp only [Option.some.injEq] at h; rw [← h]; exact hb

theorem tick_state_cases (env : Env) (s : LoopState) (inp : TickInput) :
    (inp.starttime = none ∧ tick env s inp = .exited (openMessage env s))
    ∨ (∃ st, inp.starttime = some st ∧
        (tick env s inp = .exited (afterFlush env s inp st)
          ∨ tick env s inp = .running (afterFlush env s inp st)
          ∨ ∃ w, tick env s inp = .running
              { afterFlush env s inp st with
                selects := (afterFlush env s inp st).selects ++ [w] })) := by
  unfold tick
  cases h1 : inp.starttime with
  | none => left; exact ⟨rfl, rfl⟩
  | some st =>
    right
    refine ⟨st, rfl, ?_⟩
    cases h2 : inp.endtime with
    | none => left; rfl
    | some et =>
      by_cases h3 : (afterFlush env s inp st).receive_exitsignal = true
      · left; simp [h3]
      · by_cases h4 : 0 < frametime env.samplespersecond
        · right; right
          exact ⟨selecttime (frametime env.samplespersecond) st et, by simp [h3, h4]⟩
        · right; left; simp [h3, h4]

theorem headerInv_tick (env : Env) (s : LoopState) (inp : TickInput) (hs : HeaderInv env s) :
    HeaderInv env (tick env s inp).state := by
  rcases tick_state_cases env s inp with ⟨_, h⟩ | ⟨st, _, h | h | ⟨w, h⟩⟩
  · rw [h]; exact headerInv_openMessage env s hs
  · rw [h]; exact headerInv_afterFlush env s inp st hs
  · rw [h]; exact headerInv_afterFlush env s inp st hs
  · rw [h]; exact headerInv_afterFlush env s inp st hs

theorem headerInv_runLoop (env : Env) (inputs : List TickInput) (s : LoopState)
    (hs : HeaderInv env s) : HeaderInv env (runLoop env s inputs).state := by
  induction inputs generalizing s with
  | nil => exact hs
  | cons inp rest ih =>
    have ht := headerInv_tick env s inp hs
    unfold runLoop
    cases h : tick env s inp with
    | running s1 => rw [h] at ht; exact ih s1 ht
    | exited s1 => rw [h] at ht; exact ht

theorem headerInv_init (env : Env) (gpsdata : Bool) : HeaderInv env (initState gpsdata) := by
  constructor
  · intro b hb; simp [initState] at hb
  · intro b hb; simp [initState] at hb

/-! ## C10: header content and order -/

/-- C10. The array `supportedObdCommandsMap` built at startup, whatever its slots held
before, is the list of catalog indices whose column name is non-null and that the device
supports (an index is in it exactly when its entry has a name and is supported), in
strictly increasing catalog order and without duplicates; its length is
`totalSupportedObdCommands`. The header of a message is "dtm", then the column names of
those entries in that order, then "lat", "lon", "alt", "crs", "spd", "gtm", and every
message sent or open at any point of any run of the loop carries that header. -/
theorem C10_header_content_and_order (env : Env) :
    (∀ vla : List Nat,
        vla.length = totalSupportedObdCommands env.obdcmds_mode1 env.isobdcapabilitysupported →
        fillLoop env.isobdcapabilitysupported env.obdcmds_mode1 0 0 vla
          = (activeColumns env.obdcmds_mode1 env.isobdcapabilitysupported).map Prod.fst)
    ∧ supportedObdCommandsMap env.obdcmds_mode1 env.isobdcapabilitysupported
        = (activeColumns env.obdcmds_mode1 env.isobdcapabilitysupported).map Prod.fst
    ∧ (∀ q : Nat,
        q ∈ supportedObdCommandsMap env.obdcmds_mode1 env.isobdcapabilitysupported
          ↔ ∃ c, env.obdcmds_mode1[q]? = some c ∧ c.db_column ≠ none
              ∧ env.isobdcapabilitysupported q = true)
    ∧ List.Pairwise (fun a b => a < b)
        (supportedObdCommandsMap env.obdcmds_mode1 env.isobdcapabilitysupported)
    ∧ (supportedObdCommandsMap env.obdcmds_mode1 env.isobdcapabilitysupported).Nodup
    ∧ (supportedObdCommandsMap env.obdcmds_mode1 env.isobdcapabilitysupported).length
        = totalSupportedObdCommands env.obdcmds_mode1 env.isobdcapabilitysupported
    ∧ header env
        = ["dtm"]
          ++ (activeColumns env.obdcmds_mode1 env.isobdcapabilitysupported).filterMap
              (fun p => p.2.db_column)
          ++ ["lat", "lon", "alt", "crs", "spd", "gtm"]
    ∧ ∀ (gpsdata : Bool) (inputs : List TickInput) (b : Body),
        (b ∈ (runLoop env (initState gpsdata) inputs).state.sent
          ∨ (runLoop env (initState gpsdata) inputs).state.message = some b
          ∨ b = currentBody env (runLoop env (initState gpsdata) inputs).state) →
        b.h = header env := by
  have hinc := active_increasing env.obdcmds_mode1 env.isobdcapabilitysupported
  refine ⟨fun vla h => fillLoop_full _ _ vla h, map_eq_active _ _, ?_, ?_, ?_, ?_, ?_, ?_⟩
  · intro q
    rw [map_eq_active]
    exact mem_active_indices env.obdcmds_mode1 env.isobdcapabilitysupported q
  · rw [map_eq_active]; exact hinc
  · rw [map_eq_active]; exact hinc.nodup
  · rw [map_eq_active, total_eq_length, List.length_map]
  · rw [header, header_columns]; rfl
  · intro gpsdata inputs b hb
    have hinv := headerInv_runLoop env inputs (initState gpsdata) (headerInv_init env gpsdata)
    rcases hb with hb | hb | hb
    · exact hinv.1 b hb
    · exact hinv.2 b hb
    · rw [hb]; exact currentBody_h env _ hinv

/-! ## C1, C3, C8: rows evaluated on concrete ticks -/

/-- C1, evaluated where the arity invariant fails. The serial port is open, the device
supports one column (engine speed) and its read succeeds: the message opened on the first
tick has a header of 8 names, and the row the tick appends has 7 cells, because the read
loop stops one column short. -/
theorem C1_row_shorter_than_header :
    (tick envRpmOnly (initState false) tickAllSuccess).state.message
      = some { h := ["dtm", "rpm", "lat", "lon", "alt", "crs", "spd", "gtm"],
               d := [[Cell.double 100, Cell.null, Cell.null, Cell.null, Cell.null,
                      Cell.null, Cell.null]] } := by
  decide!

/-- C3, evaluated on a fix. With speed 4 and course 5 the row written under the header
"dtm", "lat", "lon", "alt", "crs", "spd", "gtm" pairs "crs" with the speed and "spd" with
the course. -/
theorem C3_course_and_speed_swapped :
    (tick envGpsOnly (initState true) tickFix).state.message
      = some { h := ["dtm", "lat", "lon", "alt", "crs", "spd", "gtm"],
               d := [[Cell.double 100, Cell.double 1, Cell.double 2, Cell.double 3,
                      Cell.double fix3D.speed, Cell.double fix3D.course, Cell.double 6]] }
    ∧ fix3D.speed = 4 ∧ fix3D.course = 5 := by
  decide!

/-- C8, evaluated on an unavailable reading. The serial port is open, three columns are
active, the read of column "load" is unavailable and the read of "rpm" gives 800: the row
has no null for "load"; the cell after the time stamp is the engine-speed value. -/
theorem C8_unavailable_reading_dropped :
    (tick envAll (initState false) tickFirstUnavailable).state.message
      = some { h := ["dtm", "load", "rpm", "vss", "lat", "lon", "alt", "crs", "spd", "gtm"],
               d := [[Cell.double 100, Cell.float 800, Cell.null, Cell.null, Cell.null,
                      Cell.null, Cell.null, Cell.null]] } := by
  decide!

/-! ## C7: pacing wait -/

theorem selecttime_eq (ft : Int) (starttime endtime : timeval) :
    selecttime ft starttime endtime
      = { tv_sec := 0,
          tv_usec := if ft - elapsed starttime endtime < 0 then 1
                     else ft - elapsed starttime endtime } := by
  have hsec : (if endtime.tv_sec - starttime.tv_sec ≠ 0 then (0 : Int)
      else endtime.tv_sec - starttime.tv_sec) = 0 := by
    split <;> omega
  have husec : ft - ((if endtime.tv_sec - starttime.tv_sec ≠ 0
        then endtime.tv_usec + 1000000 * (endtime.tv_sec - starttime.tv_sec)
        else endtime.tv_usec) - starttime.tv_usec) = ft - elapsed starttime endtime := by
    unfold elapsed
    split <;> omega
  simp only [selecttime]
  rw [hsec, husec]

theorem tick_running_selects (env : Env) (s s1 : LoopState) (inp : TickInput)
    (starttime endtime : timeval) (hft : 0 < frametime env.samplespersecond)
    (hst : inp.starttime = some starttime) (het : inp.endtime = some endtime)
    (hrun : tick env s inp = .running s1) :
    s1.selects = s.selects ++ [selecttime (frametime env.samplespersecond) starttime endtime] := by
  unfold tick at hrun
  simp only [hst, het] at hrun
  by_cases h3 : (afterFlush env s inp starttime).receive_exitsignal = true
  · simp [h3] at hrun
  · simp only [h3, hft, if_true] at hrun
    simp only [Bool.false_eq_true, if_false, Outcome.running.injEq] at hrun
    rw [← hrun]
    rfl

/-- C7, as the claim states it, fails when a tick takes exactly the frame time. At 10 samples
per second (frame time 100000) a tick from 100.000000 s to 100.100000 s, whose values are
all far inside the range of `long`, is given the wait of 0 s 0 us, both by the wait
computation and in the run of the loop (serial port open, position link down), where the
claim says a wait of 1 us. -/
theorem C7_zero_wait_at_exact_frame :
    0 < frametime 10
    ∧ selecttimeInRange (frametime 10) { tv_sec := 100, tv_usec := 0 }
        { tv_sec := 100, tv_usec := 100000 }
    ∧ 0 ≤ elapsed { tv_sec := 100, tv_usec := 0 } { tv_sec := 100, tv_usec := 100000 }
    ∧ selecttime (frametime 10) { tv_sec := 100, tv_usec := 0 }
        { tv_sec := 100, tv_usec := 100000 } = { tv_sec := 0, tv_usec := 0 }
    ∧ claimedWait (frametime 10) { tv_sec := 100, tv_usec := 0 }
        { tv_sec := 100, tv_usec := 100000 } = { tv_sec := 0, tv_usec := 1 }
    ∧ (tick envAll (initState false) tickFullFrame).state.selects
        = [{ tv_sec := 0, tv_usec := 0 }] := by
  decide!

theorem selecttimeInRange_of_short_tick (ft : Int) (starttime endtime : timeval)
    (hft0 : 0 < ft) (hft1 : ft ≤ 1000000)
    (hs0 : 0 ≤ starttime.tv_sec) (he1 : endtime.tv_sec ≤ 2147483647)
    (hsu0 : 0 ≤ starttime.tv_usec) (hsu1 : starttime.tv_usec ≤ 999999)
    (heu0 : 0 ≤ endtime.tv_usec) (heu1 : endtime.tv_usec ≤ 999999)
    (hd0 : 0 ≤ endtime.tv_sec - starttime.tv_sec)
    (hd1 : endtime.tv_sec - starttime.tv_sec ≤ 2146) :
    selecttimeInRange ft starttime endtime := by
  simp only [selecttimeInRange, inLong, LONG_MIN, LONG_MAX]
  refine ⟨⟨?_, ?_⟩, ⟨?_, ?_⟩, ⟨?_, ?_⟩, ⟨?_, ?_⟩, ⟨?_, ?_⟩, ⟨?_, ?_⟩, ⟨?_, ?_⟩, ⟨?_, ?_⟩,
    ⟨?_, ?_⟩, ⟨?_, ?_⟩⟩ <;> omega

/-- C7, amended. For every positive frame time and every two clock readings, also across a
second boundary, for which every value the computation forms is a value of `long` (with a
`long` of 32 bits that covers every tick shorter than 2147 s), the wait handed to `select`
by an iteration that goes on has a zero seconds field and `frametime - elapsed` microseconds
when that difference is not negative (so 0 when the tick took exactly the frame time) and
1 microsecond when it is negative; it is `max(1, frametime - elapsed)` whenever the elapsed
time differs from the frame time, and it is itself a value of `long`. -/
theorem C7_pacing_wait_amended (env : Env) (starttime endtime : timeval)
    (hft : 0 < frametime env.samplespersecond)
    (hrange : selecttimeInRange (frametime env.samplespersecond) starttime endtime) :
    selecttime (frametime env.samplespersecond) starttime endtime
        = { tv_sec := 0,
            tv_usec :=
              if frametime env.samplespersecond - elapsed starttime endtime < 0 then 1
              else frametime env.samplespersecond - elapsed starttime endtime }
    ∧ (elapsed starttime endtime ≠ frametime env.samplespersecond →
        selecttime (frametime env.samplespersecond) starttime endtime
          = claimedWait (frametime env.samplespersecond) starttime endtime)
    ∧ (elapsed starttime endtime = frametime env.samplespersecond →
        selecttime (frametime env.samplespersecond) starttime endtime
          = { tv_sec := 0, tv_usec := 0 })
    ∧ inLong (selecttime (frametime env.samplespersecond) starttime endtime).tv_sec
    ∧ inLong (selecttime (frametime env.samplespersecond) starttime endtime).tv_usec
    ∧ ∀ (s s1 : LoopState) (inp : TickInput),
        inp.starttime = some starttime → inp.endtime = some endtime →
        tick env s inp = .running s1 →
        s1.selects
          = s.selects ++ [selecttime (frametime env.samplespersecond) starttime endtime] := by
  refine ⟨selecttime_eq _ starttime endtime, ?_, ?_, ?_, ?_, ?_⟩
  · intro hne
    rw [selecttime_eq, claimedWait]
    congr 1
    by_cases h : frametime env.samplespersecond - elapsed starttime endtime < 0
    · rw [if_pos h, max_eq_left (by omega)]
    · rw [if_neg h, max_eq_right (by omega)]
  · intro heq
    rw [selecttime_eq, heq]
    simp
  · rw [selecttime_eq]
    simp only [inLong, LONG_MIN, LONG_MAX]
    omega
  · have hlast := hrange.2.2.2.2.2.2.2.2.2
    have hel : frametime env.samplespersecond - elapsed starttime endtime
        = frametime env.samplespersecond
          - (endtime.tv_usec + 1000000 * (endtime.tv_sec - starttime.tv_sec)
              - starttime.tv_usec) := by
      unfold elapsed; ring
    rw [selecttime_eq]
    simp only [inLong, LONG_MIN, LONG_MAX] at hlast ⊢
    rw [hel]
    split <;> omega
  · intro s s1 inp hst het hrun
    exact tick_running_selects env s s1 inp starttime endtime hft hst het hrun

/-- C7 at a tick that crosses a second boundary: at 10 samples per second a tick from
100.950000 s to 101.020000 s is followed by a wait of 30000 us. -/
theorem C7_pacing_wait_amended_witness :
    0 < frametime envAll.samplespersecond
    ∧ selecttimeInRange (frametime envAll.samplespersecond) { tv_sec := 100, tv_usec := 950000 }
        { tv_sec := 101, tv_usec := 20000 }
    ∧ selecttime (frametime envAll.samplespersecond) { tv_sec := 100, tv_usec := 950000 }
        { tv_sec := 101, tv_usec := 20000 } = { tv_sec := 0, tv_usec := 30000 }
    ∧ selecttime (frametime envAll.samplespersecond) { tv_sec := 100, tv_usec := 950000 }
        { tv_sec := 101, tv_usec := 20000 }
        = { tv_sec := 0,
            tv_usec :=
              if frametime envAll.samplespersecond
                  - elapsed { tv_sec := 100, tv_usec := 950000 }
                      { tv_sec := 101, tv_usec := 20000 } < 0 then 1
              else frametime envAll.samplespersecond
                  - elapsed { tv_sec := 100, tv_usec := 950000 }
                      { tv_sec := 101, tv_usec := 20000 } } :=
  ⟨by decide, by decide, by decide,
   (C7_pacing_wait_amended envAll { tv_sec := 100, tv_usec := 950000 }
      { tv_sec := 101, tv_usec := 20000 } (by decide) (by decide)).1⟩

/-! ## C9 and C2: the fatal result -/

theorem obdStep_flag_mono (env : Env) (inp : TickInput) (st : RowState) (i : Nat)
    (h : st.receive_exitsignal = true) : (obdStep env inp st i).receive_exitsignal = true := by
  unfold obdStep
  split
  · split <;> simp [h]
  · simp [h]

theorem foldl_obdStep_flag_mono (env : Env) (inp : TickInput) (l : List Nat) (st : RowState)
    (h : st.receive_exitsignal = true) :
    (l.foldl (obdStep env inp) st).receive_exitsignal = true := by
  induction l generalizing st with
  | nil => exact h
  | cons i l ih => exact ih _ (obdStep_flag_mono env inp st i h)

theorem obdStep_error (env : Env) (inp : TickInput) (st : RowState) (i : Nat)
    (hport : env.obd_serial_port ≥ 0) (herr : (inp.getobdvalue i).1 = .OBD_ERROR) :
    (obdStep env inp st i).receive_exitsignal = true := by
  unfold obdStep
  rw [if_pos hport]
  rcases hv : inp.getobdvalue i with ⟨status, val⟩
  rw [hv] at herr
  simp only at herr
  subst herr
  rfl

theorem foldl_obdStep_error (env : Env) (inp : TickInput) (l : List Nat) (st : RowState)
    (i : Nat) (hi : i ∈ l) (hport : env.obd_serial_port ≥ 0)
    (herr : (inp.getobdvalue i).1 = .OBD_ERROR) :
    (l.foldl (obdStep env inp) st).receive_exitsignal = true := by
  induction l generalizing st with
  | nil => cases hi
  | cons j l ih =>
    rcases List.mem_cons.mp hi with h | h
    · subst h
      exact foldl_obdStep_flag_mono env inp l _ (obdStep_error env inp st i hport herr)
    · exact ih _ h

theorem obdPart_error (env : Env) (s : LoopState) (inp : TickInput) (st : timeval) (i : Nat)
    (hport : env.obd_serial_port ≥ 0) (hi : i < env.total - 1)
    (herr : (inp.getobdvalue i).1 = .OBD_ERROR) :
    (obdPart env s inp st).receive_exitsignal = true :=
  foldl_obdStep_error env inp _ _ i (List.mem_range.mpr hi) hport herr

theorem tick_exits_of_flag (env : Env) (s : LoopState) (inp : TickInput) (st : timeval)
    (hst : inp.starttime = some st)
    (hflag : (afterFlush env s inp st).receive_exitsignal = true) :
    tick env s inp = .exited (afterFlush env s inp st) := by
  unfold tick
  simp only [hst]
  cases inp.endtime with
  | none => rfl
  | some et => simp [hflag]

theorem tick_fatal (env : Env) (s : LoopState) (inp : TickInput) (st : timeval) (i : Nat)
    (hst : inp.starttime = some st) (hport : env.obd_serial_port ≥ 0)
    (hi : i < env.total - 1) (herr : (inp.getobdvalue i).1 = .OBD_ERROR) :
    tick env s inp = .exited (afterFlush env s inp st)
      ∧ (afterFlush env s inp st).receive_exitsignal = true := by
  have hflag : (afterFlush env s inp st).receive_exitsignal = true := by
    simp only [afterFlush, obdPart_error env s inp st i hport hi herr, Bool.true_or]
  exact ⟨tick_exits_of_flag env s inp st hst hflag, hflag⟩

theorem runLoop_append (env : Env) (pre rest : List TickInput) (s : LoopState) :
    runLoop env s (pre ++ rest)
      = match runLoop env s pre with
        | .running s1 => runLoop env s1 rest
        | .exited s1 => .exited s1 := by
  induction pre generalizing s with
  | nil => rfl
  | cons inp pre ih =>
    simp only [List.cons_append, runLoop]
    cases tick env s inp with
    | running s1 => exact ih s1
    | exited s1 => rfl

/-- C9. When the loop has reached a tick and a diagnostic read of that tick returns
`OBD_ERROR` (the port is open and the read is one the loop makes), the iteration sets
`receive_exitsignal` and ends in a `break`, and the run ends there whatever the answers of
later ticks would be: no iteration, hence no diagnostic read and no row, follows. -/
theorem C9_fatal_stops_sampling (env : Env) (s sN : LoopState) (pre post : List TickInput)
    (inp : TickInput) (st : timeval) (i : Nat)
    (hpre : runLoop env s pre = .running sN)
    (hst : inp.starttime = some st)
    (hport : env.obd_serial_port ≥ 0) (hi : i < env.total - 1)
    (herr : (inp.getobdvalue i).1 = .OBD_ERROR) :
    ∃ s1, tick env sN inp = .exited s1
      ∧ s1.receive_exitsignal = true
      ∧ runLoop env s (pre ++ inp :: post) = .exited s1
      ∧ runLoop env s (pre ++ [inp]) = .exited s1 := by
  obtain ⟨ht, hflag⟩ := tick_fatal env sN inp st i hst hport hi herr
  refine ⟨afterFlush env sN inp st, ht, hflag, ?_, ?_⟩
  · rw [runLoop_append, hpre]; simp only [runLoop, ht]
  · rw [runLoop_append, hpre]; simp only [runLoop, ht]

/-- C9 on a run of three ticks whose second tick has a fatal read: the run ends with the
second tick. -/
theorem C9_fatal_stops_sampling_witness :
    ∃ s1, tick envAll (tick envAll (initState false) tickAllSuccess).state tickFatal = .exited s1
      ∧ s1.receive_exitsignal = true
      ∧ runLoop envAll (initState false) ([tickAllSuccess] ++ tickFatal :: [tickAllSuccess])
          = .exited s1
      ∧ runLoop envAll (initState false) ([tickAllSuccess] ++ [tickFatal]) = .exited s1 :=
  C9_fatal_stops_sampling envAll (initState false)
    (tick envAll (initState false) tickAllSuccess).state [tickAllSuccess] [tickAllSuccess]
    tickFatal { tv_sec := 100, tv_usec := 0 } 0
    (by decide!) rfl (by decide) (by decide!) (by decide!)

/-- C2, as the claim states it, fails. Three columns are active, the port is open, and the
first read of the first tick returns `OBD_ERROR`: the loop exits with the message that
holds the row of that tick still open, and the messenger was given nothing, neither in the
loop nor by the shutdown sequence. -/
theorem C2_open_batch_not_sent :
    (runLoop envAll (initState false) [tickFatal]).isExited = true
    ∧ (runLoop envAll (initState false) [tickFatal]).state.receive_exitsignal = true
    ∧ (runLoop envAll (initState false) [tickFatal]).state.message
        = some { h := ["dtm", "load", "rpm", "vss", "lat", "lon", "alt", "crs", "spd", "gtm"],
                 d := [[Cell.double 100, Cell.float 800, Cell.null, Cell.null, Cell.null,
                        Cell.null, Cell.null, Cell.null]] }
    ∧ shutdown (runLoop envAll (initState false) [tickFatal]).state = [] := by
  decide!

/-- C2, amended. On a tick with a fatal diagnostic read the loop exits at the end of that
tick, and the message open at that tick, with the row of the tick, has been handed to the
messenger exactly when the flush predicate of the tick holds; otherwise it is still open
when the loop exits and the messenger has what it had before the tick. The statements after
the loop hand nothing to the messenger. More generally, whenever an iteration exits, the
messenger holds what it held before that iteration, plus the message of the iteration when
its flush predicate held. -/
theorem C2_flush_on_shutdown_amended (env : Env) (sN : LoopState) (inp : TickInput)
    (st : timeval) (i : Nat)
    (hst : inp.starttime = some st)
    (hport : env.obd_serial_port ≥ 0) (hi : i < env.total - 1)
    (herr : (inp.getobdvalue i).1 = .OBD_ERROR) :
    (∃ s1, tick env sN inp = .exited s1
      ∧ (flushDue env sN inp st = true →
          shutdown s1 = sN.sent ++ [bodyWithRow env sN inp st] ∧ s1.message = none)
      ∧ (flushDue env sN inp st = false →
          shutdown s1 = sN.sent ∧ s1.message = some (bodyWithRow env sN inp st)))
    ∧ ∀ (s s1 : LoopState) (inp1 : TickInput), tick env s inp1 = .exited s1 →
        (shutdown s1 = s.sent ∧ s1.message ≠ none)
        ∨ (∃ st1, inp1.starttime = some st1 ∧ flushDue env s inp1 st1 = true
            ∧ shutdown s1 = s.sent ++ [bodyWithRow env s inp1 st1] ∧ s1.message = none) := by
  constructor
  · refine ⟨afterFlush env sN inp st, (tick_fatal env sN inp st i hst hport hi herr).1, ?_, ?_⟩
    · intro hdue; simp [shutdown, afterFlush, hdue]
    · intro hdue; simp [shutdown, afterFlush, hdue]
  · intro s s1 inp1 hexit
    rcases tick_state_cases env s inp1 with ⟨_, h⟩ | ⟨st1, hst1, h | h | ⟨w, h⟩⟩
    · rw [h] at hexit
      simp only [Outcome.exited.injEq] at hexit
      left; rw [← hexit]; simp [shutdown, openMessage]
    · rw [h] at hexit
      simp only [Outcome.exited.injEq] at hexit
      by_cases hdue : flushDue env s inp1 st1 = true
      · right
        refine ⟨st1, hst1, hdue, ?_⟩
        rw [← hexit]; simp [shutdown, afterFlush, hdue]
      · left
        rw [← hexit]; simp [shutdown, afterFlush, hdue]
    · rw [h] at hexit; cases hexit
    · rw [h] at hexit; cases hexit

/-- C2 amended, on the first tick of a run with three active columns whose first read is
fatal. -/
theorem C2_flush_on_shutdown_amended_witness :
    flushDue envAll (initState false) tickFatal { tv_sec := 100, tv_usec := 0 } = false
    ∧ ∃ s1, tick envAll (initState false) tickFatal = .exited s1
      ∧ (flushDue envAll (initState false) tickFatal { tv_sec := 100, tv_usec := 0 } = true →
          shutdown s1 = (initState false).sent
              ++ [bodyWithRow envAll (initState false) tickFatal { tv_sec := 100, tv_usec := 0 }]
            ∧ s1.message = none)
      ∧ (flushDue envAll (initState false) tickFatal { tv_sec := 100, tv_usec := 0 } = false →
          shutdown s1 = (initState false).sent
            ∧ s1.message
              = some (bodyWithRow envAll (initState false) tickFatal
                  { tv_sec := 100, tv_usec := 0 })) :=
  ⟨by decide!,
   (C2_flush_on_shutdown_amended envAll (initState false) tickFatal
      { tv_sec := 100, tv_usec := 0 } 0 rfl (by decide) (by decide!) (by decide!)).1⟩

/-! ## C5 and C4: the flush predicate -/

theorem tick_state_fields (env : Env) (s : LoopState) (inp : TickInput) (st : timeval)
    (hst : inp.starttime = some st) :
    (tick env s inp).state.sent = (afterFlush env s inp st).sent
    ∧ (tick env s inp).state.message = (afterFlush env s inp st).message
    ∧ (tick env s inp).state.lastRpm = (afterFlush env s inp st).lastRpm
    ∧ (tick env s inp).state.currentRpm = (afterFlush env s inp st).currentRpm := by
  rcases tick_state_cases env s inp with ⟨h0, _⟩ | ⟨st1, hst1, h | h | ⟨w, h⟩⟩
  · rw [hst] at h0; cases h0
  all_goals
    rw [hst] at hst1
    simp only [Option.some.injEq] at hst1
    subst hst1
    rw [h]
    exact ⟨rfl, rfl, rfl, rfl⟩

theorem tick_sent_due (env : Env) (s : LoopState) (inp : TickInput) (st : timeval)
    (hst : inp.starttime = some st) (hdue : flushDue env s inp st = true) :
    (tick env s inp).state.sent = s.sent ++ [bodyWithRow env s inp st]
      ∧ (tick env s inp).state.message = none := by
  obtain ⟨h1, h2, _, _⟩ := tick_state_fields env s inp st hst
  rw [h1, h2]
  simp [afterFlush, hdue]

theorem tick_sent_not_due (env : Env) (s : LoopState) (inp : TickInput) (st : timeval)
    (hst : inp.starttime = some st) (hdue : flushDue env s inp st = false) :
    (tick env s inp).state.sent = s.sent
      ∧ (tick env s inp).state.message = some (bodyWithRow env s inp st) := by
  obtain ⟨h1, h2, _, _⟩ := tick_state_fields env s inp st hst
  rw [h1, h2]
  simp [afterFlush, hdue]

theorem append_singleton_ne_self {α : Type} (l : List α) (a : α) : l ≠ l ++ [a] := by
  intro h
  have := congrArg List.length h
  simp at this

theorem tick_dispatch_iff (env : Env) (s : LoopState) (inp : TickInput) (st : timeval)
    (hst : inp.starttime = some st) :
    (tick env s inp).state.sent = s.sent ++ [bodyWithRow env s inp st]
      ↔ flushDue env s inp st = true := by
  constructor
  · intro h
    by_contra hdue
    have hf : flushDue env s inp st = false := by simpa using hdue
    rw [(tick_sent_not_due env s inp st hst hf).1] at h
    exact append_singleton_ne_self _ _ h
  · intro hdue
    exact (tick_sent_due env s inp st hst hdue).1

theorem flushDue_iff (env : Env) (s : LoopState) (inp : TickInput) (st : timeval) :
    flushDue env s inp st = true
      ↔ (env.pn_data_size (bodyWithRow env s inp st) > maxMsgPayload
          ∨ (s.lastRpm > 0 ∧ (obdPart env s inp st).currentRpm = 0)) := by
  simp [flushDue]

/-- C5. On every tick on which the engine-speed trigger is false, the open message is
dispatched at the end of the tick if and only if the body size reported after the row of
the tick is appended is strictly greater than 1024: a size of exactly 1024 does not flush,
a size of 1025 does. After a flush no message is open, and the message the next iteration
works on is a fresh one: after that iteration appends its row it holds the header and that
single row. -/
theorem C5_size_flush_threshold (env : Env) (s : LoopState) (inp : TickInput) (st : timeval)
    (hst : inp.starttime = some st)
    (hrpm : ¬ (s.lastRpm > 0 ∧ (obdPart env s inp st).currentRpm = 0)) :
    ((tick env s inp).state.sent = s.sent ++ [bodyWithRow env s inp st]
        ↔ env.pn_data_size (bodyWithRow env s inp st) > 1024)
    ∧ (¬ env.pn_data_size (bodyWithRow env s inp st) > 1024 →
        (tick env s inp).state.sent = s.sent
          ∧ (tick env s inp).state.message = some (bodyWithRow env s inp st))
    ∧ (env.pn_data_size (bodyWithRow env s inp st) = 1024 →
        (tick env s inp).state.sent = s.sent)
    ∧ (env.pn_data_size (bodyWithRow env s inp st) = 1025 →
        (tick env s inp).state.sent = s.sent ++ [bodyWithRow env s inp st])
    ∧ (env.pn_data_size (bodyWithRow env s inp st) > 1024 →
        (tick env s inp).state.message = none
          ∧ (openMessage env (tick env s inp).state).message = some (newMessage env)
          ∧ ∀ (inp2 : TickInput) (st2 : timeval),
              bodyWithRow env (tick env s inp).state inp2 st2
                = { h := header env, d := [tickRow env (tick env s inp).state inp2 st2] }) := by
  have hiff : flushDue env s inp st = true
      ↔ env.pn_data_size (bodyWithRow env s inp st) > 1024 := by
    rw [flushDue_iff]
    constructor
    · rintro (h | h)
      · exact h
      · exact absurd h hrpm
    · intro h; exact Or.inl h
  have hno : ¬ env.pn_data_size (bodyWithRow env s inp st) > 1024 →
      (tick env s inp).state.sent = s.sent
        ∧ (tick env s inp).state.message = some (bodyWithRow env s inp st) := by
    intro h
    have hf : flushDue env s inp st = false := by
      cases hd : flushDue env s inp st with
      | false => rfl
      | true => exact absurd (hiff.mp hd) h
    exact tick_sent_not_due env s inp st hst hf
  refine ⟨(tick_dispatch_iff env s inp st hst).trans hiff, hno, ?_, ?_, ?_⟩
  · intro h; exact (hno (by omega)).1
  · intro h; exact (tick_sent_due env s inp st hst (hiff.mpr (by omega))).1
  · intro h
    have hm := (tick_sent_due env s inp st hst (hiff.mpr h)).2
    refine ⟨hm, ?_, ?_⟩
    · simp [openMessage, currentBody, hm]
    · intro inp2 st2
      simp [bodyWithRow, currentBody, hm, newMessage]

/-- C5 at the threshold: with a reported size of 1025 the first tick of a run flushes. -/
theorem C5_size_flush_threshold_witness :
    (tick (envSize 1025) (initState false) tickAllSuccess).state.sent
      = (initState false).sent
        ++ [bodyWithRow (envSize 1025) (initState false) tickAllSuccess
              { tv_sec := 100, tv_usec := 0 }]
    ∧ (tick (envSize 1024) (initState false) tickAllSuccess).state.sent
      = (initState false).sent :=
  ⟨(C5_size_flush_threshold (envSize 1025) (initState false) tickAllSuccess
      { tv_sec := 100, tv_usec := 0 } rfl (by decide!)).2.2.2.1 (by decide),
   (C5_size_flush_threshold (envSize 1024) (initState false) tickAllSuccess
      { tv_sec := 100, tv_usec := 0 } rfl (by decide!)).2.2.1 (by decide)⟩

theorem obdStep_currentRpm (env : Env) (inp : TickInput) (st : RowState) (i : Nat)
    (hport : env.obd_serial_port ≥ 0) :
    (obdStep env inp st i).currentRpm
      = if rpmSuccess env inp i = true then floatToInt (inp.getobdvalue i).2
        else st.currentRpm := by
  unfold obdStep rpmSuccess
  rw [if_pos hport]
  rcases hv : inp.getobdvalue i with ⟨status, val⟩
  cases status <;> cases hc : (cmdidAt env i == 0x0C) <;> simp

theorem obdStep_currentRpm_closed (env : Env) (inp : TickInput) (st : RowState) (i : Nat)
    (hport : ¬ env.obd_serial_port ≥ 0) :
    (obdStep env inp st i).currentRpm = st.currentRpm := by
  unfold obdStep
  rw [if_neg hport]

theorem foldl_obdStep_currentRpm (env : Env) (inp : TickInput)
    (hport : env.obd_serial_port ≥ 0) (l : List Nat) (st : RowState) :
    (l.foldl (obdStep env inp) st).currentRpm
      = heldRpm st.currentRpm
          ((l.reverse.find? (rpmSuccess env inp)).map (fun i => (inp.getobdvalue i).2)) := by
  induction l using List.reverseRecOn with
  | nil => rfl
  | append_singleton l i ih =>
    rw [List.foldl_append, List.reverse_append]
    simp only [List.foldl_cons, List.foldl_nil, List.reverse_cons, List.reverse_nil,
      List.nil_append, List.singleton_append]
    rw [obdStep_currentRpm env inp _ i hport, List.find?_cons]
    by_cases hs : rpmSuccess env inp i = true
    · simp [hs, heldRpm]
    · have hs1 : rpmSuccess env inp i = false := by simpa using hs
      simp only [hs1, Bool.false_eq_true, if_false]
      exact ih

theorem foldl_obdStep_currentRpm_closed (env : Env) (inp : TickInput)
    (hport : ¬ env.obd_serial_port ≥ 0) (l : List Nat) (st : RowState) :
    (l.foldl (obdStep env inp) st).currentRpm = st.currentRpm := by
  induction l generalizing st with
  | nil => rfl
  | cons i l ih =>
    rw [List.foldl_cons, ih, obdStep_currentRpm_closed env inp st i hport]

theorem obdPart_currentRpm (env : Env) (s : LoopState) (inp : TickInput) (st : timeval) :
    (obdPart env s inp st).currentRpm = heldRpm s.currentRpm (rpmReading env inp) := by
  unfold obdPart obdLoop rpmReading
  by_cases hport : env.obd_serial_port ≥ 0
  · rw [if_pos hport, foldl_obdStep_currentRpm env inp hport]
  · rw [if_neg hport, foldl_obdStep_currentRpm_closed env inp hport]
    rfl

theorem floatToInt_intCast (n : Int) : floatToInt (n : ℚ) = n := by
  simp [floatToInt]

theorem tick_running_rpm (env : Env) (s0 s1 : LoopState) (inp1 : TickInput)
    (hrun : tick env s0 inp1 = .running s1) :
    s1.lastRpm = heldRpm s0.currentRpm (rpmReading env inp1)
      ∧ s1.currentRpm = heldRpm s0.currentRpm (rpmReading env inp1) := by
  rcases tick_state_cases env s0 inp1 with ⟨_, h⟩ | ⟨st1, hst1, _⟩
  · rw [h] at hrun; cases hrun
  · obtain ⟨_, _, h3, h4⟩ := tick_state_fields env s0 inp1 st1 hst1
    rw [hrun] at h3 h4
    simp only [Outcome.state] at h3 h4
    rw [h3, h4]
    simp [afterFlush, obdPart_currentRpm]

/-- C4, as the claim states it, fails on readings that are not whole numbers. With three
active columns and body sizes far below the threshold, a tick whose engine-speed reading is
1000 followed by a tick whose reading is 1/4, which is not zero, dispatches the message at
the end of the second tick. -/
theorem C4_flush_on_nonzero_reading :
    rpmReading envAll (tickRpm 100 1000) = some 1000
    ∧ rpmReading envAll (tickRpm 101 (1 / 4)) = some (1 / 4)
    ∧ (1 / 4 : ℚ) ≠ 0
    ∧ envAll.pn_data_size
        { h := header envAll,
          d := [[Cell.double 100, Cell.float 1000, Cell.float 1000, Cell.null, Cell.null,
                 Cell.null, Cell.null, Cell.null, Cell.null],
                [Cell.double 101, Cell.float (1 / 4), Cell.float (1 / 4), Cell.null,
                 Cell.null, Cell.null, Cell.null, Cell.null, Cell.null]] } ≤ maxMsgPayload
    ∧ (runLoop envAll (initState false) [tickRpm 100 1000]).state.sent = []
    ∧ (runLoop envAll (initState false) [tickRpm 100 1000, tickRpm 101 (1 / 4)]).state.sent
        = [{ h := header envAll,
             d := [[Cell.double 100, Cell.float 1000, Cell.float 1000, Cell.null, Cell.null,
                    Cell.null, Cell.null, Cell.null, Cell.null],
                   [Cell.double 101, Cell.float (1 / 4), Cell.float (1 / 4), Cell.null,
                    Cell.null, Cell.null, Cell.null, Cell.null, Cell.null]] }] := by
  decide!

theorem heldRpm_inInt (env : Env) (inp : TickInput) (prev : Int) (hprev : inInt prev)
    (hr : rpmInRange env inp) : inInt (heldRpm prev (rpmReading env inp)) := by
  unfold rpmReading
  by_cases hport : env.obd_serial_port ≥ 0
  · rw [if_pos hport]
    cases hfind : (List.range (env.total - 1)).reverse.find? (rpmSuccess env inp) with
    | none => exact hprev
    | some i =>
      have hp : rpmSuccess env inp i = true := List.find?_some hfind
      have hmem : i ∈ (List.range (env.total - 1)).reverse := List.mem_of_find?_eq_some hfind
      have hi : i < env.total - 1 := List.mem_range.mp (List.mem_reverse.mp hmem)
      exact hr hport i hi hp
  · rw [if_neg hport]
    exact hprev

/-- C4, amended. On every two consecutive ticks on which the body size does not exceed the
payload threshold and every engine-speed value read has an integer part within the range
of `int` (where the conversion of the float to `int` is defined), the message is dispatched
at the end of the second tick exactly when the integer engine speed held after the first
tick is positive and the one held after the second tick is zero; the held value is the
integer part of the most recent successful engine-speed reading the read loop made (the
value held before when a tick has none), and it is a value of `int`. When both ticks have a
reading this is: the integer part of the previous reading is positive and the integer part
of the current reading is zero; for whole-number readings it is the claim as stated. On the
first tick of a run the heuristic never flushes. -/
theorem C4_engine_speed_flush_amended (env : Env) (s0 s1 : LoopState) (inp1 inp2 : TickInput)
    (st2 : timeval)
    (hrun : tick env s0 inp1 = .running s1)
    (hst2 : inp2.starttime = some st2)
    (hsize : env.pn_data_size (bodyWithRow env s1 inp2 st2) ≤ maxMsgPayload)
    (hs0 : inInt s0.currentRpm)
    (hr1 : rpmInRange env inp1) (hr2 : rpmInRange env inp2) :
    ((tick env s1 inp2).state.sent = s1.sent ++ [bodyWithRow env s1 inp2 st2]
        ↔ (heldRpm s0.currentRpm (rpmReading env inp1) > 0
            ∧ heldRpm (heldRpm s0.currentRpm (rpmReading env inp1)) (rpmReading env inp2) = 0))
    ∧ (¬ (heldRpm s0.currentRpm (rpmReading env inp1) > 0
            ∧ heldRpm (heldRpm s0.currentRpm (rpmReading env inp1)) (rpmReading env inp2) = 0)
        → (tick env s1 inp2).state.sent = s1.sent)
    ∧ (∀ v1 v2 : ℚ, rpmReading env inp1 = some v1 → rpmReading env inp2 = some v2 →
        ((tick env s1 inp2).state.sent = s1.sent ++ [bodyWithRow env s1 inp2 st2]
          ↔ (floatToInt v1 > 0 ∧ floatToInt v2 = 0)))
    ∧ (∀ n1 n2 : Int, rpmReading env inp1 = some (n1 : ℚ) → rpmReading env inp2 = some (n2 : ℚ) →
        ((tick env s1 inp2).state.sent = s1.sent ++ [bodyWithRow env s1 inp2 st2]
          ↔ (n1 > 0 ∧ n2 = 0)))
    ∧ (inInt (heldRpm s0.currentRpm (rpmReading env inp1))
        ∧ inInt (heldRpm (heldRpm s0.currentRpm (rpmReading env inp1)) (rpmReading env inp2)))
    ∧ (∀ (gpsdata : Bool) (inp : TickInput) (st : timeval), inp.starttime = some st →
        env.pn_data_size (bodyWithRow env (initState gpsdata) inp st) ≤ maxMsgPayload →
        rpmInRange env inp →
        (tick env (initState gpsdata) inp).state.sent = []) := by
  obtain ⟨hlast, hcur⟩ := tick_running_rpm env s0 s1 inp1 hrun
  have hiff : flushDue env s1 inp2 st2 = true
      ↔ (heldRpm s0.currentRpm (rpmReading env inp1) > 0
          ∧ heldRpm (heldRpm s0.currentRpm (rpmReading env inp1)) (rpmReading env inp2) = 0) := by
    rw [flushDue_iff, obdPart_currentRpm, hlast, hcur]
    constructor
    · rintro (h | h)
      · omega
      · exact h
    · intro h; exact Or.inr h
  have hmain := (tick_dispatch_iff env s1 inp2 st2 hst2).trans hiff
  have hin1 := heldRpm_inInt env inp1 s0.currentRpm hs0 hr1
  have hin2 := heldRpm_inInt env inp2 _ hin1 hr2
  refine ⟨hmain, ?_, ?_, ?_, ⟨hin1, hin2⟩, ?_⟩
  · intro h
    have hf : flushDue env s1 inp2 st2 = false := by
      cases hd : flushDue env s1 inp2 st2 with
      | false => rfl
      | true => exact absurd (hiff.mp hd) h
    exact (tick_sent_not_due env s1 inp2 st2 hst2 hf).1
  · intro v1 v2 h1 h2
    rw [hmain, h1, h2]
    simp only [heldRpm]
  · intro n1 n2 h1 h2
    rw [hmain, h1, h2]
    simp only [heldRpm, floatToInt_intCast]
  · intro gpsdata inp st hst hsz _
    have hf : flushDue env (initState gpsdata) inp st = false := by
      cases hd : flushDue env (initState gpsdata) inp st with
      | false => rfl
      | true =>
        rcases (flushDue_iff env _ inp st).mp hd with h | h
        · omega
        · simp [initState] at h
    exact (tick_sent_not_due env (initState gpsdata) inp st hst hf).1

/-- C4 amended, on whole-number readings: engine speed 800 followed by engine speed 0
dispatches the message at the end of the second tick. -/
theorem C4_engine_speed_flush_amended_witness :
    inInt (initState false).currentRpm
    ∧ intConvertible 800 ∧ intConvertible 0
    ∧ (tick envAll (tick envAll (initState false) (tickRpm 100 800)).state
        (tickRpm 101 0)).state.sent
      = (tick envAll (initState false) (tickRpm 100 800)).state.sent
        ++ [bodyWithRow envAll (tick envAll (initState false) (tickRpm 100 800)).state
              (tickRpm 101 0) { tv_sec := 101, tv_usec := 0 }] :=
  ⟨by decide, by decide!, by decide!,
   ((C4_engine_speed_flush_amended envAll (initState false)
      (tick envAll (initState false) (tickRpm 100 800)).state (tickRpm 100 800) (tickRpm 101 0)
      { tv_sec := 101, tv_usec := 0 } (by decide!) rfl (by decide!) (by decide)
      (fun _ _ _ _ => (by decide! : intConvertible 800))
      (fun _ _ _ _ => (by decide! : intConvertible 0))).2.2.2.1
    800 0 (by decide!) (by decide!)).mpr ⟨by decide, rfl⟩⟩

/-! ## C6: position reconnect rate limit -/

theorem log2Fuel_spec (fuel n : Nat) (hfuel : n ≤ fuel) (hn : 1 ≤ n) :
    2 ^ log2Fuel fuel n ≤ n ∧ n < 2 ^ (log2Fuel fuel n + 1) := by
  induction fuel generalizing n with
  | zero => omega
  | succ fuel ih =>
    unfold log2Fuel
    by_cases h2 : n < 2
    · rw [if_pos h2]
      have : n = 1 := by omega
      subst this
      constructor <;> norm_num
    · rw [if_neg h2]
      obtain ⟨h3, h4⟩ := ih (n / 2) (by omega) (by omega)
      rw [pow_succ, pow_succ]
      rw [pow_succ] at h4
      constructor <;> omega

theorem log2Nat_spec (n : Nat) (hn : 1 ≤ n) :
    2 ^ log2Nat n ≤ n ∧ n < 2 ^ (log2Nat n + 1) :=
  log2Fuel_spec n n (Nat.le_refl n) hn

theorem ilog2_spec_aux (num den ln ld : Nat) (hden : 0 < den)
    (hn1 : 2 ^ ln ≤ num) (hn2 : num < 2 ^ (ln + 1))
    (hd1 : 2 ^ ld ≤ den) (hd2 : den < 2 ^ (ld + 1)) :
    ((2 : ℚ) ^ ((ln : Int) - (ld : Int)) ≤ (num : ℚ) / (den : ℚ) →
        (num : ℚ) / (den : ℚ) < (2 : ℚ) ^ ((ln : Int) - (ld : Int) + 1))
    ∧ (¬ (2 : ℚ) ^ ((ln : Int) - (ld : Int)) ≤ (num : ℚ) / (den : ℚ) →
        (2 : ℚ) ^ ((ln : Int) - (ld : Int) - 1) ≤ (num : ℚ) / (den : ℚ)
          ∧ (num : ℚ) / (den : ℚ) < (2 : ℚ) ^ ((ln : Int) - (ld : Int) - 1 + 1)) := by
  have hdq : (0 : ℚ) < (den : ℚ) := by exact_mod_cast hden
  have hn1q : (2 : ℚ) ^ ln ≤ (num : ℚ) := by exact_mod_cast hn1
  have hn2q : (num : ℚ) < (2 : ℚ) ^ (ln + 1) := by exact_mod_cast hn2
  have hd1q : (2 : ℚ) ^ ld ≤ (den : ℚ) := by exact_mod_cast hd1
  have hd2q : (den : ℚ) < (2 : ℚ) ^ (ld + 1) := by exact_mod_cast hd2
  have hnq : (0 : ℚ) ≤ (num : ℚ) := by positivity
  have hpd : (0 : ℚ) < (2 : ℚ) ^ ld := by positivity
  have hpd1 : (0 : ℚ) < (2 : ℚ) ^ (ld + 1) := by positivity
  have e0 : (2 : ℚ) ^ ((ln : Int) - (ld : Int)) = (2 : ℚ) ^ ln / (2 : ℚ) ^ ld := by
    rw [zpow_sub₀ (by norm_num), zpow_natCast, zpow_natCast]
  have elow : (2 : ℚ) ^ ((ln : Int) - (ld : Int) - 1) = (2 : ℚ) ^ ln / (2 : ℚ) ^ (ld + 1) := by
    rw [zpow_sub_one₀ (by norm_num), e0, pow_succ]
    field_simp
  have ehigh : (2 : ℚ) ^ ((ln : Int) - (ld : Int) + 1) = (2 : ℚ) ^ (ln + 1) / (2 : ℚ) ^ ld := by
    rw [zpow_add_one₀ (by norm_num), e0, pow_succ]
    field_simp
  constructor
  · intro _
    rw [ehigh, div_lt_div_iff₀ hdq hpd]
    calc (num : ℚ) * (2 : ℚ) ^ ld ≤ (num : ℚ) * (den : ℚ) :=
          mul_le_mul_of_nonneg_left hd1q hnq
      _ < (2 : ℚ) ^ (ln + 1) * (den : ℚ) := mul_lt_mul_of_pos_right hn2q hdq
  · intro hc
    constructor
    · rw [elow, div_le_div_iff₀ hpd1 hdq]
      calc (2 : ℚ) ^ ln * (den : ℚ) ≤ (num : ℚ) * (den : ℚ) :=
            mul_le_mul_of_nonneg_right hn1q (le_of_lt hdq)
        _ ≤ (num : ℚ) * (2 : ℚ) ^ (ld + 1) :=
            mul_le_mul_of_nonneg_left (le_of_lt hd2q) hnq
    · have : (ln : Int) - (ld : Int) - 1 + 1 = (ln : Int) - (ld : Int) := by ring
      rw [this]
      exact not_le.mp hc

theorem ilog2_spec (a : ℚ) (ha : 0 < a) :
    (2 : ℚ) ^ ilog2 a ≤ a ∧ a < (2 : ℚ) ^ (ilog2 a + 1) := by
  have hnum : 0 < a.num := Rat.num_pos.mpr ha
  have hden : 0 < a.den := a.den_pos
  have hnat : ((a.num.natAbs : Nat) : Int) = a.num := Int.natAbs_of_nonneg (le_of_lt hnum)
  obtain ⟨hn1, hn2⟩ := log2Nat_spec a.num.natAbs (by omega)
  obtain ⟨hd1, hd2⟩ := log2Nat_spec a.den (by omega)
  have hcast : ((a.num.natAbs : Nat) : ℚ) = (a.num : ℚ) := by
    conv_rhs => rw [← hnat]
    exact (Int.cast_natCast _).symm
  have hq : (a.num.natAbs : ℚ) / (a.den : ℚ) = a := by
    rw [hcast]; exact Rat.num_div_den a
  obtain ⟨h1, h2⟩ := ilog2_spec_aux a.num.natAbs a.den (log2Nat a.num.natAbs) (log2Nat a.den)
    hden hn1 hn2 hd1 hd2
  rw [hq] at h1 h2
  unfold ilog2
  by_cases hc : (2 : ℚ) ^ ((log2Nat a.num.natAbs : Int) - (log2Nat a.den : Int)) ≤ a
  · rw [if_pos hc]
    exact ⟨hc, h1 hc⟩
  · rw [if_neg hc]
    exact h2 hc

theorem roundHalfEven_error (m : ℚ) : |(roundHalfEven m : ℚ) - m| ≤ 1 / 2 := by
  have h1 := Int.floor_le m
  have h2 := Int.lt_floor_add_one m
  unfold roundHalfEven
  split_ifs with ha hb hc
  · rw [abs_le]; constructor <;> linarith
  · rw [abs_le]; push_cast; constructor <;> linarith
  · rw [abs_le]; constructor <;> linarith
  · rw [abs_le]; push_cast; constructor <;> linarith

theorem roundHalfEven_le (m : ℚ) (N : Int) (h : m ≤ N) : roundHalfEven m ≤ N := by
  have h1 := Int.floor_le m
  have hf : ⌊m⌋ ≤ N := by
    have : ((⌊m⌋ : Int) : ℚ) ≤ (N : ℚ) := le_trans h1 h
    exact_mod_cast this
  have hup : (1 : ℚ) / 2 ≤ m - (⌊m⌋ : Int) → ⌊m⌋ + 1 ≤ N := by
    intro hfrac
    by_contra hcon
    have hN : N ≤ ⌊m⌋ := by omega
    have : (N : ℚ) ≤ ((⌊m⌋ : Int) : ℚ) := by exact_mod_cast hN
    linarith
  unfold roundHalfEven
  split_ifs with ha hb hc
  · exact hf
  · exact hup (le_of_lt hb)
  · exact hf
  · exact hup (not_lt.mp ha)

theorem roundDouble_error_ilog2 (x : ℚ) (hx : x ≠ 0) :
    |roundDouble x - x| ≤ (2 : ℚ) ^ (ilog2 |x| - 53) := by
  have hq : (0 : ℚ) < (2 : ℚ) ^ (ilog2 |x| - 52) := zpow_pos (by norm_num) _
  have hr := roundHalfEven_error (x / (2 : ℚ) ^ (ilog2 |x| - 52))
  have e1 : roundDouble x - x
      = ((roundHalfEven (x / (2 : ℚ) ^ (ilog2 |x| - 52)) : ℚ)
          - x / (2 : ℚ) ^ (ilog2 |x| - 52)) * (2 : ℚ) ^ (ilog2 |x| - 52) := by
    unfold roundDouble
    rw [if_neg hx]
    field_simp
  have e2 : (2 : ℚ) ^ (ilog2 |x| - 53) = (1 / 2) * (2 : ℚ) ^ (ilog2 |x| - 52) := by
    have : ilog2 |x| - 53 = (ilog2 |x| - 52) - 1 := by ring
    rw [this, zpow_sub_one₀ (by norm_num)]
    ring
  rw [e1, abs_mul, abs_of_pos hq, e2]
  exact mul_le_mul_of_nonneg_right hr (le_of_lt hq)

theorem roundDouble_error (x : ℚ) (k : Int) (hx : |x| < (2 : ℚ) ^ k) :
    |roundDouble x - x| ≤ (2 : ℚ) ^ (k - 54) := by
  by_cases h0 : x = 0
  · subst h0
    simp only [roundDouble, if_true, sub_self, abs_zero]
    exact le_of_lt (zpow_pos (by norm_num) _)
  · have hpos : 0 < |x| := abs_pos.mpr h0
    have hlog : (2 : ℚ) ^ ilog2 |x| ≤ |x| := (ilog2_spec |x| hpos).1
    have hlt : (2 : ℚ) ^ ilog2 |x| < (2 : ℚ) ^ k := lt_of_le_of_lt hlog hx
    have he : ilog2 |x| < k := (zpow_lt_zpow_iff_right₀ (by norm_num)).mp hlt
    refine le_trans (roundDouble_error_ilog2 x h0) ?_
    exact zpow_le_zpow_right₀ (by norm_num) (by omega)

theorem roundDouble_le_ten (x : ℚ) (hx : x ≤ 10) : roundDouble x ≤ 10 := by
  by_cases h0 : x = 0
  · subst h0; simp [roundDouble]
  · have hq : (0 : ℚ) < (2 : ℚ) ^ (ilog2 |x| - 52) := zpow_pos (by norm_num) _
    unfold roundDouble
    rw [if_neg h0]
    rcases lt_or_gt_of_ne h0 with hneg | hpos
    · have hm : x / (2 : ℚ) ^ (ilog2 |x| - 52) ≤ ((0 : Int) : ℚ) := by
        rw [Int.cast_zero]
        exact le_of_lt (div_neg_of_neg_of_pos hneg hq)
      have hr := roundHalfEven_le _ 0 hm
      have hr1 : (roundHalfEven (x / (2 : ℚ) ^ (ilog2 |x| - 52)) : ℚ) ≤ 0 := by
        exact_mod_cast hr
      have := mul_nonpos_of_nonpos_of_nonneg hr1 (le_of_lt hq)
      linarith
    · have habs : |x| = x := abs_of_pos hpos
      have hlog : (2 : ℚ) ^ ilog2 |x| ≤ |x| := (ilog2_spec |x| (by rw [habs]; exact hpos)).1
      have hlt : (2 : ℚ) ^ ilog2 |x| < (2 : ℚ) ^ (4 : Int) := by
        refine lt_of_le_of_lt hlog ?_
        rw [habs]
        have : (2 : ℚ) ^ (4 : Int) = 16 := by norm_num
        rw [this]; linarith
      have he : ilog2 |x| < 4 := (zpow_lt_zpow_iff_right₀ (by norm_num)).mp hlt
      have hnn : 0 ≤ 52 - ilog2 |x| := by omega
      have hinv : (1 : ℚ) / (2 : ℚ) ^ (ilog2 |x| - 52)
          = (((2 : Int) ^ (52 - ilog2 |x|).toNat : Int) : ℚ) := by
        have h1 : ilog2 |x| - 52 = -(((52 - ilog2 |x|).toNat : Int)) := by
          rw [Int.toNat_of_nonneg hnn]; ring
        rw [h1, zpow_neg, zpow_natCast]
        push_cast
        field_simp
      have hm : x / (2 : ℚ) ^ (ilog2 |x| - 52)
          ≤ ((10 * (2 : Int) ^ (52 - ilog2 |x|).toNat : Int) : ℚ) := by
        have : x / (2 : ℚ) ^ (ilog2 |x| - 52)
            = x * (1 / (2 : ℚ) ^ (ilog2 |x| - 52)) := by ring
        rw [this, hinv]
        push_cast
        have hp : (0 : ℚ) ≤ (2 : ℚ) ^ (52 - ilog2 |x|).toNat := by positivity
        exact mul_le_mul_of_nonneg_right hx hp
      have hr := roundHalfEven_le _ _ hm
      have hr1 : (roundHalfEven (x / (2 : ℚ) ^ (ilog2 |x| - 52)) : ℚ)
          ≤ ((10 * (2 : Int) ^ (52 - ilog2 |x|).toNat : Int) : ℚ) := by
        exact_mod_cast hr
      have hfin : ((10 * (2 : Int) ^ (52 - ilog2 |x|).toNat : Int) : ℚ)
          * (2 : ℚ) ^ (ilog2 |x| - 52) = 10 := by
        have : ((10 * (2 : Int) ^ (52 - ilog2 |x|).toNat : Int) : ℚ)
            = 10 * (1 / (2 : ℚ) ^ (ilog2 |x| - 52)) := by
          rw [hinv]; push_cast; ring
        rw [this]
        field_simp
      calc (roundHalfEven (x / (2 : ℚ) ^ (ilog2 |x| - 52)) : ℚ)
              * (2 : ℚ) ^ (ilog2 |x| - 52)
          ≤ ((10 * (2 : Int) ^ (52 - ilog2 |x|).toNat : Int) : ℚ)
              * (2 : ℚ) ^ (ilog2 |x| - 52) := mul_le_mul_of_nonneg_right hr1 (le_of_lt hq)
        _ = 10 := hfin

theorem roundDouble_error_31 (x : ℚ) (hx : |x| < 2147483648) :
    |roundDouble x - x| ≤ 1 / 8388608 := by
  have h := roundDouble_error x 31 (by norm_num; exact hx)
  have e : (2 : ℚ) ^ ((31 : Int) - 54) = 1 / 8388608 := by norm_num
  rw [e] at h; exact h

theorem roundDouble_error_20 (x : ℚ) (hx : |x| < 1048576) :
    |roundDouble x - x| ≤ 1 / 17179869184 := by
  have h := roundDouble_error x 20 (by norm_num; exact hx)
  have e : (2 : ℚ) ^ ((20 : Int) - 54) = 1 / 17179869184 := by norm_num
  rw [e] at h; exact h

theorem roundDouble_error_4 (x : ℚ) (hx : |x| < 16) :
    |roundDouble x - x| ≤ 1 / 1125899906842624 := by
  have h := roundDouble_error x 4 (by norm_num; exact hx)
  have e : (2 : ℚ) ^ ((4 : Int) - 54) = 1 / 1125899906842624 := by norm_num
  rw [e] at h; exact h

theorem roundDouble_error_1 (x : ℚ) (hx : |x| < 2) :
    |roundDouble x - x| ≤ 1 / 9007199254740992 := by
  have h := roundDouble_error x 1 (by norm_num; exact hx)
  have e : (2 : ℚ) ^ ((1 : Int) - 54) = 1 / 9007199254740992 := by norm_num
  rw [e] at h; exact h

theorem time_insert_error (st : timeval) (hs0 : 0 ≤ st.tv_sec) (hs1 : st.tv_sec ≤ 2147483645)
    (hu0 : 0 ≤ st.tv_usec) (hu1 : st.tv_usec ≤ 999999) :
    |time_insert st - ((st.tv_sec : ℚ) + (st.tv_usec : ℚ) / 1000000)| ≤ 1 / 4000000 := by
  have hS0 : (0 : ℚ) ≤ (st.tv_sec : ℚ) := by exact_mod_cast hs0
  have hS1 : (st.tv_sec : ℚ) ≤ 2147483645 := by exact_mod_cast hs1
  have hU0 : (0 : ℚ) ≤ (st.tv_usec : ℚ) := by exact_mod_cast hu0
  have hU1 : (st.tv_usec : ℚ) ≤ 999999 := by exact_mod_cast hu1
  have ha := roundDouble_error_31 (st.tv_sec : ℚ) (by rw [abs_lt]; constructor <;> linarith)
  have hb := roundDouble_error_20 (st.tv_usec : ℚ) (by rw [abs_lt]; constructor <;> linarith)
  rw [abs_le] at ha hb
  have hc := roundDouble_error_1 (roundDouble (st.tv_usec : ℚ) / 1000000)
    (by rw [abs_lt]; constructor <;> linarith)
  rw [abs_le] at hc
  have hT := roundDouble_error_31
    (roundDouble (st.tv_sec : ℚ) + roundDouble (roundDouble (st.tv_usec : ℚ) / 1000000))
    (by rw [abs_lt]; constructor <;> linarith)
  rw [abs_le] at hT
  unfold time_insert
  rw [abs_le]
  constructor <;> linarith

theorem time_insert_simClock_error (t0 : Int) (k : Nat) (h0 : 0 ≤ t0)
    (h1 : t0 + 100000 * (k : Int) ≤ 2147483645999999) :
    |time_insert (simClock t0 k) - ((t0 : ℚ) + 100000 * (k : ℚ)) / 1000000| ≤ 1 / 4000000 := by
  have hk : (0 : Int) ≤ (k : Int) := Int.natCast_nonneg k
  have h := time_insert_error (simClock t0 k)
    (by simp only [simClock]; omega) (by simp only [simClock]; omega)
    (by simp only [simClock]; omega) (by simp only [simClock]; omega)
  have hdm := Int.ediv_add_emod (t0 + 100000 * (k : Int)) 1000000
  have hq : ((1000000 * ((t0 + 100000 * (k : Int)) / 1000000)
      + (t0 + 100000 * (k : Int)) % 1000000 : Int) : ℚ) = ((t0 + 100000 * (k : Int) : Int) : ℚ) := by
    rw [hdm]
  push_cast at hq
  have e : (((simClock t0 k).tv_sec : ℚ) + ((simClock t0 k).tv_usec : ℚ) / 1000000)
      = ((t0 : ℚ) + 100000 * (k : ℚ)) / 1000000 := by
    simp only [simClock]
    field_simp
    linarith
  rw [e] at h
  exact h

theorem simClock_quiet (t0 : Int) (j k : Nat) (h0 : 0 ≤ t0)
    (hj : t0 + 100000 * (j : Int) ≤ 2147483645999999)
    (hk : t0 + 100000 * (k : Int) ≤ 2147483645999999) (hjk : k ≤ j + 99) :
    ¬ roundDouble (time_insert (simClock t0 k) - time_insert (simClock t0 j)) > 10 := by
  have ek := time_insert_simClock_error t0 k h0 hk
  have ej := time_insert_simClock_error t0 j h0 hj
  rw [abs_le] at ek ej
  have hkj : (k : ℚ) ≤ (j : ℚ) + 99 := by exact_mod_cast hjk
  have hx : time_insert (simClock t0 k) - time_insert (simClock t0 j) ≤ 10 := by
    have : ((t0 : ℚ) + 100000 * (k : ℚ)) / 1000000 - ((t0 : ℚ) + 100000 * (j : ℚ)) / 1000000
        ≤ 99 / 10 := by
      rw [div_sub_div_same, div_le_div_iff₀ (by norm_num) (by norm_num)]
      linarith
    linarith
  exact not_lt.mpr (roundDouble_le_ten _ hx)

theorem simClock_due (t0 : Int) (j k : Nat) (h0 : 0 ≤ t0)
    (hj : t0 + 100000 * (j : Int) ≤ 2147483645999999)
    (hk : t0 + 100000 * (k : Int) ≤ 2147483645999999) (hjk : k = j + 101) :
    roundDouble (time_insert (simClock t0 k) - time_insert (simClock t0 j)) > 10 := by
  have ek := time_insert_simClock_error t0 k h0 hk
  have ej := time_insert_simClock_error t0 j h0 hj
  rw [abs_le] at ek ej
  have hkj : (k : ℚ) = (j : ℚ) + 101 := by exact_mod_cast hjk
  have hd : ((t0 : ℚ) + 100000 * (k : ℚ)) / 1000000 - ((t0 : ℚ) + 100000 * (j : ℚ)) / 1000000
      = 101 / 10 := by
    rw [hkj]; field_simp; ring
  have hr := roundDouble_error_4
    (time_insert (simClock t0 k) - time_insert (simClock t0 j))
    (by rw [abs_lt]; constructor <;> linarith)
  rw [abs_le] at hr
  linarith

theorem simClock_first (t0 : Int) (h0 : 10000000 < t0) (h1 : t0 ≤ 2147483645999999) :
    roundDouble (time_insert (simClock t0 0) - 0) > 10 := by
  have e0 := time_insert_simClock_error t0 0 (by omega) (by simpa using h1)
  rw [abs_le] at e0
  simp only [Nat.cast_zero, mul_zero, add_zero] at e0
  have ht0 : (10000001 : ℚ) ≤ (t0 : ℚ) := by
    have : (10000001 : Int) ≤ t0 := by omega
    exact_mod_cast this
  have ht1 : (t0 : ℚ) ≤ 2147483645999999 := by exact_mod_cast h1
  have hlow : (10000001 : ℚ) / 1000000 ≤ (t0 : ℚ) / 1000000 :=
    div_le_div_of_nonneg_right ht0 (by norm_num)
  have hhigh : (t0 : ℚ) / 1000000 ≤ 2147483645999999 / 1000000 :=
    div_le_div_of_nonneg_right ht1 (by norm_num)
  rw [sub_zero]
  have hr := roundDouble_error_31 (time_insert (simClock t0 0))
    (by rw [abs_lt]; constructor <;> linarith)
  rw [abs_le] at hr
  linarith

theorem gpsRead_inv (s : LoopState) (inp : TickInput) (t : ℚ) (hs : GpsInv s) :
    List.Pairwise (fun a b : ℚ => 10 < b - a) (gpsRead s inp t).gpsAttempts
      ∧ ∀ a ∈ (gpsRead s inp t).gpsAttempts, a ≤ (gpsRead s inp t).time_lastgpscheck := by
  have hfields : (gpsRead s inp t).gpsAttempts
        = (if (!s.gpsdata && decide (roundDouble (t - s.time_lastgpscheck) > 10)) = true
            then s.gpsAttempts ++ [t] else s.gpsAttempts)
      ∧ (gpsRead s inp t).time_lastgpscheck
        = (if (!s.gpsdata && decide (roundDouble (t - s.time_lastgpscheck) > 10)) = true
            then t else s.time_lastgpscheck) := by
    unfold gpsRead
    simp only []
    split_ifs <;> exact ⟨rfl, rfl⟩
  rw [hfields.1, hfields.2]
  by_cases hr : (!s.gpsdata && decide (roundDouble (t - s.time_lastgpscheck) > 10)) = true
  · rw [if_pos hr, if_pos hr]
    have hgt : 10 < t - s.time_lastgpscheck := by
      simp only [Bool.and_eq_true, decide_eq_true_eq] at hr
      by_contra hcon
      exact absurd hr.2 (not_lt.mpr (roundDouble_le_ten _ (not_lt.mp hcon)))
    constructor
    · rw [List.pairwise_append]
      refine ⟨hs.1, List.pairwise_singleton _ t, ?_⟩
      intro x hx y hy
      rw [List.mem_singleton.mp hy]
      have := hs.2 x hx
      linarith
    · intro a ha
      rcases List.mem_append.mp ha with h | h
      · have := hs.2 a h
        linarith
      · rw [List.mem_singleton.mp h]
  · rw [if_neg hr, if_neg hr]
    exact hs

theorem gpsInv_tick (env : Env) (s : LoopState) (inp : TickInput) (hs : GpsInv s) :
    GpsInv (tick env s inp).state := by
  rcases tick_state_cases env s inp with ⟨_, h⟩ | ⟨st, _, h | h | ⟨w, h⟩⟩
  · rw [h]; exact hs
  all_goals
    rw [h]
    exact gpsRead_inv s inp (time_insert st) hs

theorem gpsInv_runLoop (env : Env) (inputs : List TickInput) (s : LoopState) (hs : GpsInv s) :
    GpsInv (runLoop env s inputs).state := by
  induction inputs generalizing s with
  | nil => exact hs
  | cons inp rest ih =>
    have ht := gpsInv_tick env s inp hs
    unfold runLoop
    cases h : tick env s inp with
    | running s1 => rw [h] at ht; exact ih s1 ht
    | exited s1 => rw [h] at ht; exact ht

theorem gpsInv_init (gpsdata : Bool) : GpsInv (initState gpsdata) := by
  constructor
  · simp [initState]
  · intro a ha; simp [initState] at ha

theorem obdStep_flag_false (env : Env) (inp : TickInput) (st : RowState) (i : Nat)
    (hobd : (inp.getobdvalue i).1 ≠ .OBD_ERROR) (h : st.receive_exitsignal = false) :
    (obdStep env inp st i).receive_exitsignal = false := by
  unfold obdStep
  split
  · rcases hv : inp.getobdvalue i with ⟨status, val⟩
    rw [hv] at hobd
    cases status
    · simpa using h
    · simpa using h
    · exact absurd rfl hobd
  · simpa using h

theorem foldl_obdStep_flag_false (env : Env) (inp : TickInput) (l : List Nat) (st : RowState)
    (hobd : ∀ i, (inp.getobdvalue i).1 ≠ .OBD_ERROR) (h : st.receive_exitsignal = false) :
    (l.foldl (obdStep env inp) st).receive_exitsignal = false := by
  induction l generalizing st with
  | nil => exact h
  | cons i l ih => exact ih _ (obdStep_flag_false env inp st i (hobd i) h)

theorem tick_disconnected (env : Env) (s : LoopState) (inp : TickInput) (st : timeval)
    (hst : inp.starttime = some st) (hend : inp.endtime ≠ none)
    (hopen : inp.opengps = false) (hsig : inp.sigquit = false)
    (hobd : ∀ i, (inp.getobdvalue i).1 ≠ .OBD_ERROR)
    (hg : s.gpsdata = false) (hflag : s.receive_exitsignal = false) :
    ∃ s1, tick env s inp = .running s1 ∧ s1.gpsdata = false ∧ s1.receive_exitsignal = false
      ∧ s1.time_lastgpscheck
          = (if roundDouble (time_insert st - s.time_lastgpscheck) > 10 then time_insert st
             else s.time_lastgpscheck)
      ∧ s1.gpsAttempts
          = (if roundDouble (time_insert st - s.time_lastgpscheck) > 10
             then s.gpsAttempts ++ [time_insert st] else s.gpsAttempts) := by
  have hnoexit : (afterFlush env s inp st).receive_exitsignal = false := by
    simp only [afterFlush, hsig, Bool.or_false]
    exact foldl_obdStep_flag_false env inp _ _ hobd hflag
  have hgps : (gpsRead s inp (time_insert st)).gpsdata = false
      ∧ (gpsRead s inp (time_insert st)).time_lastgpscheck
          = (if roundDouble (time_insert st - s.time_lastgpscheck) > 10 then time_insert st
             else s.time_lastgpscheck)
      ∧ (gpsRead s inp (time_insert st)).gpsAttempts
          = (if roundDouble (time_insert st - s.time_lastgpscheck) > 10
             then s.gpsAttempts ++ [time_insert st] else s.gpsAttempts) := by
    unfold gpsRead
    simp only [hg, hopen]
    by_cases hr : roundDouble (time_insert st - s.time_lastgpscheck) > 10
    · simp [hr]
    · simp [hr]
  obtain ⟨et, het⟩ := Option.ne_none_iff_exists'.mp hend
  by_cases hft : 0 < frametime env.samplespersecond
  · refine ⟨{ afterFlush env s inp st with
        selects := (afterFlush env s inp st).selects
          ++ [selecttime (frametime env.samplespersecond) st et] }, ?_, ?_, ?_, ?_, ?_⟩
    · unfold tick; simp [hst, het, hnoexit, hft]
    · exact hgps.1
    · exact hnoexit
    · exact hgps.2.1
    · exact hgps.2.2
  · refine ⟨afterFlush env s inp st, ?_, ?_, ?_, ?_, ?_⟩
    · unfold tick; simp [hst, het, hnoexit, hft]
    · exact hgps.1
    · exact hnoexit
    · exact hgps.2.1
    · exact hgps.2.2

theorem sim_inv (env : Env) (f : Nat → TickInput) (t0 : Int)
    (hclock : ∀ k, (f k).starttime = some (simClock t0 k))
    (hend : ∀ k, (f k).endtime ≠ none)
    (hopen : ∀ k, (f k).opengps = false)
    (hsig : ∀ k, (f k).sigquit = false)
    (hobd : ∀ k i, ((f k).getobdvalue i).1 ≠ .OBD_ERROR)
    (s : LoopState) (k0 : Nat) (hg : s.gpsdata = false) (hflag : s.receive_exitsignal = false)
    (hlast : s.time_lastgpscheck = time_insert (simClock t0 k0)) (h0 : 0 ≤ t0) (n : Nat)
    (hmax : t0 + 100000 * ((k0 + n : Nat) : Int) ≤ 2147483645999999) :
    ∃ s1 ras, runLoop env s ((List.range n).map (fun j => f (k0 + 1 + j))) = .running s1
      ∧ s1.gpsdata = false ∧ s1.receive_exitsignal = false
      ∧ s1.time_lastgpscheck = time_insert (simClock t0 (k0 + ras.headD 0))
      ∧ s1.gpsAttempts
          = s.gpsAttempts ++ ras.reverse.map (fun a => time_insert (simClock t0 (k0 + a)))
      ∧ gapsOK ras
      ∧ ras.headD 0 ≤ n ∧ n ≤ ras.headD 0 + 100
      ∧ 100 * ras.length ≤ ras.headD 0 ∧ ras.headD 0 ≤ 101 * ras.length := by
  induction n with
  | zero =>
    refine ⟨s, [], rfl, hg, hflag, ?_, ?_, trivial, ?_, ?_, ?_, ?_⟩
    · rw [hlast]; rfl
    · simp
    all_goals simp
  | succ n ih =>
    have hmax' : t0 + 100000 * ((k0 + n : Nat) : Int) ≤ 2147483645999999 := by
      push_cast at hmax ⊢; omega
    obtain ⟨s1, ras, hrun, hg1, hflag1, hlast1, hatt1, hgaps, hL1, hL2, hc1, hc2⟩ := ih hmax'
    obtain ⟨s2, h1, h2, h3, h4, h5⟩ := tick_disconnected env s1 (f (k0 + 1 + n))
      (simClock t0 (k0 + 1 + n)) (hclock _) (hend _) (hopen _) (hsig _) (hobd _) hg1 hflag1
    have hrun2 : runLoop env s ((List.range (n + 1)).map (fun j => f (k0 + 1 + j)))
        = .running s2 := by
      rw [List.range_succ, List.map_append, runLoop_append, hrun]
      simp only [List.map_cons, List.map_nil, runLoop, h1]
    have hrj : t0 + 100000 * ((k0 + ras.headD 0 : Nat) : Int) ≤ 2147483645999999 := by
      push_cast at hmax ⊢; omega
    have hrk : t0 + 100000 * ((k0 + 1 + n : Nat) : Int) ≤ 2147483645999999 := by
      push_cast at hmax ⊢; omega
    rw [hlast1] at h4 h5
    by_cases hretry : roundDouble (time_insert (simClock t0 (k0 + 1 + n))
        - time_insert (simClock t0 (k0 + ras.headD 0))) > 10
    · rw [if_pos hretry] at h4 h5
      have hfar : ras.headD 0 + 100 ≤ n + 1 := by
        by_contra hcon
        exact simClock_quiet t0 (k0 + ras.headD 0) (k0 + 1 + n) h0 hrj hrk (by omega) hretry
      have hidx : k0 + 1 + n = k0 + (n + 1) := by omega
      rw [hidx] at h4 h5
      refine ⟨s2, (n + 1) :: ras, hrun2, h2, h3, ?_, ?_, ?_, ?_, ?_, ?_, ?_⟩
      · rw [h4]
        simp only [List.headD_cons]
      · rw [h5, hatt1]
        simp only [List.reverse_cons, List.map_append, List.map_cons, List.map_nil,
          List.append_assoc]
      · cases ras with
        | nil =>
          simp only [List.headD_nil] at hfar hL2
          show n + 1 = 100 ∨ n + 1 = 101
          omega
        | cons b rest =>
          simp only [List.headD_cons] at hfar hL2
          exact ⟨by omega, hgaps⟩
      · simp
      · simp
      · simp only [List.length_cons, List.headD_cons]; omega
      · simp only [List.length_cons, List.headD_cons]; omega
    · rw [if_neg hretry] at h4 h5
      have hnear : n + 1 ≤ ras.headD 0 + 100 := by
        by_contra hcon
        exact hretry (simClock_due t0 (k0 + ras.headD 0) (k0 + 1 + n) h0 hrj hrk (by omega))
      refine ⟨s2, ras, hrun2, h2, h3, h4, ?_, hgaps, by omega, hnear, hc1, hc2⟩
      rw [h5, hatt1]

theorem retry_at_ten_seconds_depends_on_rounding :
    roundDouble (time_insert (simClock 10100000 100) - time_insert (simClock 10100000 0)) > 10
    ∧ ¬ roundDouble (time_insert (simClock 1700000000000000 100)
          - time_insert (simClock 1700000000000000 0)) > 10 := by
  decide!

/-- C6. While the loop runs, any two reconnect attempts it makes are at least 10 seconds
(in fact more than 10 seconds) of capture time apart, capture time being the double
`time_insert` of the tick, so there is at most one attempt in any 10-second window. With
a simulated clock that ticks 10 times per second, within the range of a 32-bit `time_t`,
a position link that is absent and reconnects that all fail, the 25 seconds that follow an
attempt made on tick `k0` (the `n` next ticks, for every `n` from 202 to 299, in particular
250) see exactly two more attempts: each comes 100 or 101 ticks after the one before it,
the tick that falls exactly 10 s after an attempt being decided by the rounding of the
doubles. From the start of `main`, with a clock beyond 10 s as an epoch clock is, the first
attempt is on tick 0 and a run of 203 to 300 ticks, in particular the 251 ticks from 0 s to
25 s, makes exactly 2 attempts after it. -/
theorem C6_reconnect_rate_limit (env : Env) :
    (∀ (gpsdata : Bool) (inputs : List TickInput),
        List.Pairwise (fun a b : ℚ => 10 ≤ b - a)
            (runLoop env (initState gpsdata) inputs).state.gpsAttempts
          ∧ List.Pairwise (fun a b : ℚ => 10 < b - a)
            (runLoop env (initState gpsdata) inputs).state.gpsAttempts)
    ∧ ∀ (f : Nat → TickInput) (t0 : Int),
        (∀ k, (f k).starttime = some (simClock t0 k)) →
        (∀ k, (f k).endtime ≠ none) →
        (∀ k, (f k).opengps = false) →
        (∀ k, (f k).sigquit = false) →
        (∀ k i, ((f k).getobdvalue i).1 ≠ .OBD_ERROR) →
        0 ≤ t0 →
        (∀ (s : LoopState) (k0 n : Nat),
            s.gpsdata = false → s.receive_exitsignal = false →
            s.time_lastgpscheck = time_insert (simClock t0 k0) →
            t0 + 100000 * ((k0 + n : Nat) : Int) ≤ 2147483645999999 →
            202 ≤ n → n ≤ 299 →
            ∃ a1 a2 : Nat, (a1 = 100 ∨ a1 = 101) ∧ (a2 = a1 + 100 ∨ a2 = a1 + 101)
              ∧ (runLoop env s ((List.range n).map (fun j => f (k0 + 1 + j)))).state.gpsAttempts
                = s.gpsAttempts
                  ++ [time_insert (simClock t0 (k0 + a1)), time_insert (simClock t0 (k0 + a2))]
              ∧ (runLoop env s
                  ((List.range n).map (fun j => f (k0 + 1 + j)))).state.gpsAttempts.length
                = s.gpsAttempts.length + 2)
        ∧ ∀ n : Nat, 10000000 < t0 → t0 + 100000 * (n : Int) ≤ 2147483645999999 →
            203 ≤ n → n ≤ 300 →
            ∃ a1 a2 : Nat, (a1 = 100 ∨ a1 = 101) ∧ (a2 = a1 + 100 ∨ a2 = a1 + 101)
              ∧ (runLoop env (initState false) ((List.range n).map f)).state.gpsAttempts
                = [time_insert (simClock t0 0), time_insert (simClock t0 a1),
                   time_insert (simClock t0 a2)]
              ∧ (runLoop env (initState false) ((List.range n).map f)).state.gpsAttempts.length
                = 1 + 2 := by
  constructor
  · intro gpsdata inputs
    have h := (gpsInv_runLoop env inputs (initState gpsdata) (gpsInv_init gpsdata)).1
    exact ⟨h.imp (fun hab => le_of_lt hab), h⟩
  · intro f t0 hclock hend hopen hsig hobd h0
    have hfrom : ∀ (s : LoopState) (k0 n : Nat),
        s.gpsdata = false → s.receive_exitsignal = false →
        s.time_lastgpscheck = time_insert (simClock t0 k0) →
        t0 + 100000 * ((k0 + n : Nat) : Int) ≤ 2147483645999999 →
        202 ≤ n → n ≤ 299 →
        ∃ a1 a2 : Nat, (a1 = 100 ∨ a1 = 101) ∧ (a2 = a1 + 100 ∨ a2 = a1 + 101)
          ∧ (runLoop env s ((List.range n).map (fun j => f (k0 + 1 + j)))).state.gpsAttempts
            = s.gpsAttempts
              ++ [time_insert (simClock t0 (k0 + a1)), time_insert (simClock t0 (k0 + a2))]
          ∧ (runLoop env s
              ((List.range n).map (fun j => f (k0 + 1 + j)))).state.gpsAttempts.length
            = s.gpsAttempts.length + 2 := by
      intro s k0 n hg hflag hlast hmax hn1 hn2
      obtain ⟨s1, ras, hrun, _, _, _, hatt, hgaps, hL1, hL2, hc1, hc2⟩ :=
        sim_inv env f t0 hclock hend hopen hsig hobd s k0 hg hflag hlast h0 n hmax
      have hlen : ras.length = 2 := by omega
      match ras, hlen, hgaps, hatt with
      | [a2, a1], _, hgaps, hatt =>
        refine ⟨a1, a2, hgaps.2, hgaps.1, ?_, ?_⟩
        · rw [hrun]
          simp only [Outcome.state]
          rw [hatt]
          rfl
        · rw [hrun]
          simp only [Outcome.state]
          rw [hatt]
          simp
    refine ⟨hfrom, ?_⟩
    intro n ht0 hmax hn1 hn2
    obtain ⟨s1, h1, h2, h3, h4, h5⟩ := tick_disconnected env (initState false) (f 0)
      (simClock t0 0) (hclock 0) (hend 0) (hopen 0) (hsig 0) (hobd 0) rfl rfl
    have hgt : roundDouble (time_insert (simClock t0 0) - (initState false).time_lastgpscheck)
        > 10 := simClock_first t0 ht0 (by omega)
    rw [if_pos hgt] at h4 h5
    have hsplit : (List.range n).map f
        = [f 0] ++ (List.range (n - 1)).map (fun j => f (0 + 1 + j)) := by
      have hn : n = (n - 1) + 1 := by omega
      conv_lhs => rw [hn, List.range_succ_eq_map]
      simp only [List.map_cons, List.map_map, List.singleton_append, List.cons.injEq, true_and]
      apply List.map_congr_left
      intro j _
      simp only [Function.comp_apply]
      congr 1
      omega
    obtain ⟨a1, a2, ha1, ha2, hrest, _⟩ := hfrom s1 0 (n - 1) h2 h3 h4
      (by push_cast; omega) (by omega) (by omega)
    refine ⟨a1, a2, ha1, ha2, ?_, ?_⟩
    · rw [hsplit, runLoop_append]
      simp only [runLoop, h1]
      rw [hrest, h5]
      simp [initState]
    · rw [hsplit, runLoop_append]
      simp only [runLoop, h1]
      rw [hrest, h5]
      simp [initState]

/-- C6 on a simulated run with the serial port open and the position link down: 251 ticks,
10 per second, from the epoch time 1700000000 s, every reconnect failing, make exactly two
attempts after the one of tick 0. -/
theorem C6_reconnect_rate_limit_witness :
    (0 : Int) ≤ 1700000000000000 ∧ (10000000 : Int) < 1700000000000000
    ∧ (1700000000000000 : Int) + 100000 * ((251 : Nat) : Int) ≤ 2147483645999999
    ∧ ∃ a1 a2 : Nat, (a1 = 100 ∨ a1 = 101) ∧ (a2 = a1 + 100 ∨ a2 = a1 + 101)
      ∧ (runLoop envAll (initState false)
          ((List.range 251).map (simTick 1700000000000000))).state.gpsAttempts
        = [time_insert (simClock 1700000000000000 0),
           time_insert (simClock 1700000000000000 a1),
           time_insert (simClock 1700000000000000 a2)]
      ∧ (runLoop envAll (initState false)
          ((List.range 251).map (simTick 1700000000000000))).state.gpsAttempts.length
        = 1 + 2 :=
  ⟨by decide, by decide, by decide,
   ((C6_reconnect_rate_limit envAll).2 (simTick 1700000000000000) 1700000000000000
      (fun _ => rfl) (fun _ => by simp [simTick]) (fun _ => rfl) (fun _ => rfl)
      (fun _ _ => by simp [simTick]) (by decide)).2 251 (by decide) (by decide) (by decide)
      (by decide)⟩

/-! ## C11: the insert statement -/

theorem strlen_append (a b : String) : strlen (a ++ b) = strlen a + strlen b := by
  show String.utf8Len (a ++ b).data = String.utf8Len a.data + String.utf8Len b.data
  rw [String.data_append, String.utf8Len_append]

theorem concatAll_append (l1 l2 : List String) :
    concatAll (l1 ++ l2) = concatAll l1 ++ concatAll l2 := by
  induction l1 with
  | nil => simp [concatAll]
  | cons a l1 ih => simp [concatAll, ih, String.append_assoc]

theorem strcatAll_append (s : String) (l1 l2 : List String) :
    strcatAll s (l1 ++ l2) = (strcatAll s l1).bind fun s1 => strcatAll s1 l2 := by
  induction l1 generalizing s with
  | nil => rfl
  | cons p l1 ih =>
    simp only [List.cons_append, strcatAll]
    cases strcat s p with
    | none => rfl
    | some s1 => exact ih s1

theorem strcatAll_eq (s : String) (pieces : List String)
    (hs : strlen s + 1 ≤ insert_sql_size) :
    strcatAll s pieces
      = if strlen (s ++ concatAll pieces) + 1 ≤ insert_sql_size
        then some (s ++ concatAll pieces) else none := by
  induction pieces generalizing s with
  | nil =>
    simp only [strcatAll, concatAll, String.append_empty]
    rw [if_pos hs]
  | cons p rest ih =>
    simp only [strcatAll, concatAll, strcat]
    by_cases hfit : strlen s + strlen p + 1 ≤ insert_sql_size
    · rw [if_pos hfit]
      simp only [Option.some_bind]
      rw [ih (s ++ p) (by rw [strlen_append]; exact hfit), String.append_assoc]
    · rw [if_neg hfit]
      simp only [Option.none_bind]
      rw [if_neg]
      rw [strlen_append, strlen_append]
      omega

theorem placeholdersLoop_eq (n : Nat) (s : String) :
    placeholdersLoop n s = strcatAll s (List.replicate n "?,") := by
  induction n generalizing s with
  | zero => rfl
  | succ n ih =>
    simp only [placeholdersLoop, List.replicate_succ, strcatAll]
    cases strcat s "?," with
    | none => rfl
    | some s1 => exact ih s1

theorem columnsLoop_eq (supported : Nat → Bool) (rest : List obdservicecmd) (i : Nat)
    (s : String) (cc : Nat) :
    columnsLoop supported rest i s cc
      = (strcatAll s (namePieces
            (((rest.enumFrom i).filter (activeEntry supported)).filterMap
              (fun p => p.2.db_column)))).map
          (fun t => (t, cc + ((rest.enumFrom i).filter (activeEntry supported)).length)) := by
  induction rest generalizing i s cc with
  | nil => simp [columnsLoop, namePieces, strcatAll]
  | cons c rest ih =>
    rw [List.enumFrom_cons]
    cases hcol : c.db_column with
    | none =>
      have hact : ¬ activeEntry supported (i, c) = true := by simp [activeEntry, hcol]
      rw [List.filter_cons_of_neg hact]
      simp only [columnsLoop, hcol]
      exact ih (i + 1) s cc
    | some name =>
      by_cases hsup : supported i = true
      · have hact : activeEntry supported (i, c) = true := by simp [activeEntry, hcol, hsup]
        rw [List.filter_cons_of_pos hact]
        simp only [columnsLoop, hcol, hsup, if_true, List.filterMap_cons, namePieces,
          strcatAll, List.length_cons]
        cases strcat s name with
        | none => rfl
        | some s1 =>
          simp only [Option.some_bind]
          cases strcat s1 "," with
          | none => rfl
          | some s2 =>
            simp only [Option.some_bind]
            rw [ih (i + 1) s2 (cc + 1)]
            congr 1
            funext t
            congr 1
            omega
      · have hact : ¬ activeEntry supported (i, c) = true := by simp [activeEntry, hsup]
        rw [List.filter_cons_of_neg hact]
        simp only [columnsLoop, hcol, hsup]
        exact ih (i + 1) s cc

theorem commaSep_cons (a : String) (l : List String) (hl : l ≠ []) :
    commaSep (a :: l) = a ++ "," ++ commaSep l := by
  cases l with
  | nil => exact absurd rfl hl
  | cons b rest => rfl

theorem commaSep_names (names : List String) :
    commaSep (names ++ ["time", "trip"]) = concatAll (namePieces names) ++ "time,trip" := by
  induction names with
  | nil => decide
  | cons n rest ih =>
    rw [List.cons_append, commaSep_cons n _ (by simp), ih]
    simp only [namePieces, concatAll, String.append_assoc]

theorem commaSep_placeholders (k : Nat) :
    commaSep (List.replicate (k + 2) "?") = concatAll (List.replicate k "?,") ++ "?,?" := by
  induction k with
  | zero => decide
  | succ k ih =>
    rw [List.replicate_succ, commaSep_cons "?" _ (by simp [List.replicate_succ]), ih,
      List.replicate_succ]
    simp only [concatAll]
    have h : "?" ++ "," = "?," := by decide
    rw [h, String.append_assoc]

theorem insertText_eq (names : List String) :
    "INSERT INTO obd (" ++ concatAll (insertPieces names) = insertText names := by
  unfold insertText insertPieces
  rw [commaSep_names, commaSep_placeholders]
  simp only [concatAll_append, concatAll, String.append_empty, String.append_assoc]
  have h1 : "time,trip" ++ ") VALUES (" = "time,trip) VALUES (" := by decide
  have h2 : "?,?" ++ ")" = "?,?)" := by decide
  have e1 : ∀ t : String, "time,trip" ++ (") VALUES (" ++ t) = "time,trip) VALUES (" ++ t := by
    intro t; rw [← String.append_assoc, h1]
  rw [e1, h2]

theorem activeNames_length (catalog : List obdservicecmd) (supported : Nat → Bool) :
    (activeNames catalog supported).length = (activeColumns catalog supported).length := by
  unfold activeNames
  rw [filterMap_names_eq _ (fun p hp => (mem_activeColumns hp).2.1), List.length_map]

theorem createobdinsertstmt_strcatAll (catalog : List obdservicecmd) (supported : Nat → Bool)
    (prepare : String → Bool) :
    createobdinsertstmt catalog supported prepare
      = (strcatAll "INSERT INTO obd (" (insertPieces (activeNames catalog supported))).map
          (fun t => { insert_sql := t,
                      ret := if prepare t = true
                             then (activeNames catalog supported).length + 1 else 0 }) := by
  unfold createobdinsertstmt insertPieces
  rw [columnsLoop_eq, ← activeColumns_eq, activeNames_length]
  change _ = (strcatAll "INSERT INTO obd ("
    (namePieces (activeNames catalog supported) ++ ["time,trip) VALUES ("]
      ++ List.replicate (activeColumns catalog supported).length "?," ++ ["?,?)"])).map _
  rw [List.append_assoc, List.append_assoc, strcatAll_append]
  unfold activeNames
  cases strcatAll "INSERT INTO obd ("
      (namePieces ((activeColumns catalog supported).filterMap fun p => p.2.db_column)) with
  | none => rfl
  | some t1 =>
    simp only [List.singleton_append]
    simp only [Option.map_some', Option.some_bind, Nat.zero_add, strcatAll]
    cases strcat t1 "time,trip) VALUES (" with
    | none => rfl
    | some t2 =>
      simp only [Option.some_bind]
      rw [placeholdersLoop_eq, strcatAll_append]
      cases strcatAll t2 (List.replicate (activeColumns catalog supported).length "?,") with
      | none => rfl
      | some t3 =>
        simp only [Option.some_bind, strcatAll]
        cases strcat t3 "?,?)" with
        | none => rfl
        | some t4 =>
          simp only [Option.some_bind, Option.map_some']
          cases prepare t4 <;> simp

theorem createobdinsertstmt_eq (catalog : List obdservicecmd) (supported : Nat → Bool)
    (prepare : String → Bool) :
    createobdinsertstmt catalog supported prepare
      = if strlen (insertText (activeNames catalog supported)) + 1 ≤ insert_sql_size
        then some { insert_sql := insertText (activeNames catalog supported),
                    ret := if prepare (insertText (activeNames catalog supported)) = true
                           then (activeNames catalog supported).length + 1 else 0 }
        else none := by
  rw [createobdinsertstmt_strcatAll, strcatAll_eq _ _ (by decide), insertText_eq]
  split <;> rfl

theorem strlen_namePieces (names : List String) (len : Nat)
    (hlen : ∀ n ∈ names, strlen n = len) :
    strlen (concatAll (namePieces names)) = names.length * (len + 1) := by
  induction names with
  | nil => simp only [namePieces, concatAll, List.length_nil, Nat.zero_mul]; decide
  | cons n rest ih =>
    have h1 : strlen "," = 1 := by decide
    simp only [namePieces, concatAll, strlen_append, List.length_cons, h1,
      hlen n (List.mem_cons_self n rest),
      ih (fun m hm => hlen m (List.mem_cons_of_mem n hm))]
    ring

theorem strlen_placeholders (k : Nat) :
    strlen (concatAll (List.replicate k "?,")) = 2 * k := by
  induction k with
  | zero => decide
  | succ k ih =>
    have h1 : strlen "?," = 2 := by decide
    simp only [List.replicate_succ, concatAll, strlen_append, h1, ih]
    ring

theorem strlen_insertText (names : List String) (len : Nat)
    (hlen : ∀ n ∈ names, strlen n = len) :
    strlen (insertText names) = 40 + names.length * (len + 3) := by
  have h1 : strlen "INSERT INTO obd (" = 17 := by decide
  have h2 : strlen "time,trip) VALUES (" = 19 := by decide
  have h3 : strlen "?,?)" = 4 := by decide
  have h4 : strlen "" = 0 := by decide
  rw [← insertText_eq, insertPieces]
  simp only [strlen_append, concatAll_append, concatAll, strlen_namePieces names len hlen,
    strlen_placeholders, h1, h2, h3, h4]
  ring

theorem digitChar_utf8Size (d : Nat) : (digitChar d).utf8Size = 1 := by
  unfold digitChar
  have h := Nat.mod_lt d (show 0 < 10 by decide)
  generalize d % 10 = m at h
  interval_cases m <;> decide

theorem strlen_parameterName (i : Nat) : strlen (parameterName i) = 13 := by
  have h1 : strlen "parameter_" = 10 := by decide
  unfold parameterName
  rw [strlen_append, h1]
  show 10 + String.utf8Len [digitChar (i / 100), digitChar (i / 10), digitChar i] = 13
  simp only [String.utf8Len_cons, String.utf8Len_nil, digitChar_utf8Size]

theorem activeNames_all (catalog : List obdservicecmd) (supported : Nat → Bool)
    (names : List String) (hcat : catalog.map (fun c => c.db_column) = names.map some)
    (hsup : ∀ q, supported q = true) :
    activeNames catalog supported = names := by
  have hall : ∀ p ∈ catalog.enum, (p.2.db_column.isSome && supported p.1) = true := by
    intro p hp
    have hmem : p.2 ∈ catalog := by
      rw [← List.enum_map_snd catalog]
      exact List.mem_map_of_mem Prod.snd hp
    have hc : p.2.db_column ∈ names.map some := by
      rw [← hcat]
      exact List.mem_map_of_mem (fun c => c.db_column) hmem
    obtain ⟨n, _, hn⟩ := List.mem_map.mp hc
    rw [← hn, hsup]
    rfl
  unfold activeNames activeColumns
  rw [List.filter_eq_self.mpr hall]
  have h1 : List.filterMap (fun p : Nat × obdservicecmd => p.2.db_column) catalog.enum
      = List.filterMap id ((catalog.enum.map Prod.snd).map (fun c => c.db_column)) := by
    rw [List.map_map, List.filterMap_map]
    rfl
  rw [h1, List.enum_map_snd, hcat, List.filterMap_map]
  exact congrFun (List.filterMap_eq_map (fun n : String => n)) names |>.trans (List.map_id names)

theorem createobdinsertstmt_fits (catalog : List obdservicecmd) (supported : Nat → Bool)
    (prepare : String → Bool)
    (hfit : strlen (insertText (activeNames catalog supported)) + 1 ≤ insert_sql_size) :
    createobdinsertstmt catalog supported prepare
        = some { insert_sql := insertText (activeNames catalog supported),
                 ret := if prepare (insertText (activeNames catalog supported)) = true
                        then (activeNames catalog supported).length + 1 else 0 }
      ∧ (activeNames catalog supported).length = totalSupportedObdCommands catalog supported := by
  rw [createobdinsertstmt_eq, if_pos hfit, activeNames_length, total_eq_length]
  exact ⟨rfl, rfl⟩

theorem createobdinsertstmt_catalog3 :
    createobdinsertstmt catalog3 (fun _ => true) (fun _ => true)
        = some { insert_sql := "INSERT INTO obd (load,rpm,vss,time,trip) VALUES (?,?,?,?,?)",
                 ret := 4 }
      ∧ createobdinsertstmt catalog3 (fun q => q == 1) (fun _ => false)
        = some { insert_sql := "INSERT INTO obd (rpm,time,trip) VALUES (?,?,?)", ret := 0 } := by
  decide!

/-- C11, evaluated where the statement is not built. With a catalog of 256 entries that
all have a column name of 13 bytes and are all supported, the text the claim describes
takes 4136 bytes, more than the array `insert_sql` of 4096 bytes holds: a `strcat` of the
function writes past the end of the array, and no statement with the 258 columns and 258
placeholders is produced. -/
theorem C11_insert_text_overflows_buffer :
    (activeNames catalog256 (fun _ => true)).length = 256
    ∧ strlen (insertText (activeNames catalog256 (fun _ => true))) = 4136
    ∧ insert_sql_size = 4096
    ∧ createobdinsertstmt catalog256 (fun _ => true) (fun _ => true) = none := by
  have hnames : activeNames catalog256 (fun _ => true) = (List.range 256).map parameterName := by
    apply activeNames_all
    · simp only [catalog256, List.map_map]
      rfl
    · intro q; rfl
  have hlen : ∀ n ∈ (List.range 256).map parameterName, strlen n = 13 := by
    intro n hn
    obtain ⟨i, _, hi⟩ := List.mem_map.mp hn
    rw [← hi]; exact strlen_parameterName i
  have hsize : strlen (insertText (activeNames catalog256 (fun _ => true))) = 4136 := by
    rw [hnames, strlen_insertText _ 13 hlen]
    simp
  refine ⟨by rw [hnames]; simp, hsize, rfl, ?_⟩
  rw [createobdinsertstmt_eq, hsize, if_neg (by decide)]

end AzureLogger
